import Mathlib

/-!
Verification of the media workflow compiler/evaluator
(`ffmpeg_utils/ffmpeg_handler.py`, `media_mcp_handler/workflow_builder.py`,
`files_util/file_handler.py`).

The Python code is shallowly embedded: plain values become inductive types,
the mutable `FFmpeg` object state (`_file_copies`, `_copy_usage_index`) and
filesystem effects become explicit state records threaded through the
functions, Python exceptions become an `Except PyErr` result (state is
returned alongside the result since a raised exception does not roll back
mutations), and fresh-name generation (`uuid.uuid4`, `tempfile`) is modelled
by constructors indexed by a counter, which captures exactly the freshness
those mechanisms provide.
-/

set_option autoImplicit false

namespace MediaMCP

/-- Python exception values that the modelled code can raise. -/
inductive PyErr : Type where
  | valueError (msg : String)
  | typeError (msg : String)
  | attributeError (msg : String)
  | indexError (msg : String)
  | keyError (key : String)
  | runtimeError (msg : String)
  | pyException (msg : String)
  | ffmpegError (msg : String)
  deriving DecidableEq, Repr

/-- Local filesystem paths.  `orig s` is an ordinary path string `s`;
`tmp k` is the k-th fresh temporary file produced by
`tempfile.NamedTemporaryFile` in `FileHandler.download_url_to_local`;
`copy i base` is the copy path `/tmp/copy_{i}_{uuid4()}_{basename(base)}`
produced by `FFmpeg._create_file_copies` (the uuid guarantees the name is
fresh, which the constructor encoding captures); `outp k` is the fresh
output path `/tmp/final_{uuid4()}.mp4` of `render_workflow`. -/
inductive FPath : Type where
  | orig (s : String)
  | tmp (k : Nat)
  | copy (i : Nat) (base : FPath)
  | outp (k : Nat)
  deriving DecidableEq, Repr

/-- Python scalar values appearing as action parameters.  Numbers are
modelled as integers (the claims under study only use their exact
arithmetic, never float rounding). -/
inductive PyVal : Type where
  | int (n : Int)
  | str (s : String)
  | pynone
  deriving DecidableEq, Repr

/-- A leaf reference as classified by `urlparse(source)`: `http s` is a
reference whose scheme is http or https (`s` the full reference text),
`pathStr s` is any other reference text, treated as a filesystem path.
Pre-parsing the scheme into the constructor embeds exactly the
`parsed.scheme in ("http", "https")` test of the source. -/
inductive Src : Type where
  | http (s : String)
  | pathStr (s : String)
  deriving DecidableEq, Repr

/-- Full reference text of a source. -/
def Src.body : Src → String
  | .http s => s
  | .pathStr s => s

/-- Python truthiness test, as used by `if not stream1_duration:` and
`if weights:`. -/
def falsy : PyVal → Bool
  | .int n => n == 0
  | .str s => s == ""
  | .pynone => true

/-- Parameter dictionary of an action node: the keyword entries stored
next to `action` and `input` by `WorkflowBuilder._build_item`. -/
def Params : Type := List (String × PyVal)

instance : DecidableEq Params := inferInstanceAs (DecidableEq (List (String × PyVal)))

/-- Python `params.get(key)`: `None` when the key is absent. -/
def pget (ps : Params) (key : String) : PyVal :=
  match ps with
  | [] => .pynone
  | (k, v) :: rest => if k = key then v else pget rest key

/-- Python `params.get(key, default)`. -/
def pgetD (ps : Params) (key : String) (dflt : PyVal) : PyVal :=
  match ps with
  | [] => dflt
  | (k, v) :: rest => if k = key then v else pgetD rest key dflt

/-- Python `params[key]`: raises `KeyError` when the key is absent. -/
def pgetStrict (ps : Params) (key : String) : Except PyErr PyVal :=
  match ps with
  | [] => .error (.keyError key)
  | (k, v) :: rest => if k = key then .ok v else pgetStrict rest key

/-- Association-list lookup, modelling Python `dict` lookup for the
`_file_copies` / `_copy_usage_index` tables. -/
def alookup {α β : Type} [DecidableEq α] : List (α × β) → α → Option β
  | [], _ => none
  | (k, v) :: rest, key => if key = k then some v else alookup rest key

/-- Association-list update: replaces the value of an existing key, or
appends the binding (Python `d[k] = v`). -/
def aset {α β : Type} [DecidableEq α] : List (α × β) → α → β → List (α × β)
  | [], key, v => [(key, v)]
  | (k, w) :: rest, key, v =>
      if key = k then (k, v) :: rest else (k, w) :: aset rest key v

theorem alookup_aset_self {α β : Type} [DecidableEq α]
    (m : List (α × β)) (k : α) (v : β) : alookup (aset m k v) k = some v := by
  induction m with
  | nil => simp [aset, alookup]
  | cons hd tl ih =>
      obtain ⟨k', w⟩ := hd
      by_cases h : k = k' <;> simp [aset, alookup, h, ih]

theorem alookup_aset_ne {α β : Type} [DecidableEq α]
    (m : List (α × β)) (k k' : α) (v : β) (h : k' ≠ k) :
    alookup (aset m k v) k' = alookup m k' := by
  induction m with
  | nil => simp [aset, alookup, h]
  | cons hd tl ih =>
      obtain ⟨k0, w⟩ := hd
      by_cases h0 : k = k0
      · subst h0; simp [aset, alookup, h]
      · by_cases h1 : k' = k0 <;> simp [aset, alookup, h0, h1, ih]

/-- Mutable state of the `FFmpeg` handler object: the
`_file_copies` map (original path to list of copy paths) and the
`_copy_usage_index` map (original path to next index to use). -/
structure CopyState : Type where
  fileCopies : List (FPath × List FPath)
  copyUsageIndex : List (FPath × Nat)
  deriving DecidableEq, Repr

/-- Filesystem-and-effect state threaded through a render call.
`files` is the set of existing local files; `tmpCounter` feeds fresh
temporary and output names; `downloadTrace`, `normTrace`, `copyTrace`
record (most recent first) the remote downloads performed, the paths fed
to `normalize_input`, and the physical copy files created. -/
structure RState : Type where
  files : List FPath
  tmpCounter : Nat
  downloadTrace : List Src
  normTrace : List FPath
  copyTrace : List FPath
  deriving DecidableEq, Repr

/-- Usage map built by `FFmpeg._scan_workflow_for_file_usage`:
canonical local path to occurrence count, in insertion order. -/
abbrev Usage : Type := List (FPath × Nat)

/-- Count recorded for a path (`0` when the path is absent, matching
`file_usage.get(local_path, 0)`). -/
def countOf (m : Usage) (p : FPath) : Nat := (alookup m p).getD 0

/-- Python `file_usage[local_path] = file_usage.get(local_path, 0) + 1`:
increments the count, inserting the key at the end on first occurrence. -/
def bump (m : Usage) (p : FPath) : Usage :=
  match alookup m p with
  | some v => aset m p (v + 1)
  | none => m ++ [(p, 1)]

theorem alookup_append_right {α β : Type} [DecidableEq α]
    (m : List (α × β)) (l : List (α × β)) (k : α) (h : alookup m k = none) :
    alookup (m ++ l) k = alookup l k := by
  induction m with
  | nil => simp
  | cons hd tl ih =>
      obtain ⟨k', w⟩ := hd
      by_cases h0 : k = k'
      · simp [alookup, h0] at h
      · simp [alookup, h0] at h ⊢; exact ih h

theorem alookup_append_left {α β : Type} [DecidableEq α]
    (m : List (α × β)) (l : List (α × β)) (k : α) {v : β}
    (h : alookup m k = some v) : alookup (m ++ l) k = some v := by
  induction m with
  | nil => simp [alookup] at h
  | cons hd tl ih =>
      obtain ⟨k', w⟩ := hd
      by_cases h0 : k = k'
      · simp [alookup, h0] at h ⊢; exact h
      · simp [alookup, h0] at h ⊢; exact ih h

theorem countOf_bump (m : Usage) (p q : FPath) :
    countOf (bump m q) p = countOf m p + (if p = q then 1 else 0) := by
  unfold bump
  cases hq : alookup m q with
  | some v =>
      by_cases h : p = q
      · subst h
        simp [countOf, alookup_aset_self, hq]
      · simp [countOf, alookup_aset_ne m q p (v + 1) h, h]
  | none =>
      by_cases h : p = q
      · subst h
        simp [countOf, alookup_append_right m _ p hq, alookup, hq]
      · cases hp : alookup m p with
        | some w => simp [countOf, alookup_append_left m _ p hp, hp, h]
        | none =>
            have : alookup (m ++ [(q, 1)]) p = none := by
              rw [alookup_append_right m _ p hp]
              simp [alookup, h]
            simp [countOf, this, hp, h]

/-- Copy paths created for one file: `usage_count - 1` copies, indexed
`0 .. usage_count - 2` (`FFmpeg._create_file_copies`, the
`for i in range(usage_count - 1)` loop). -/
def copiesFor (p : FPath) (usageCount : Nat) : List FPath :=
  (List.range (usageCount - 1)).map (fun i => FPath.copy i p)

/-- One iteration of the `for file_path, usage_count in file_usage.items()`
loop of `FFmpeg._create_file_copies`: for a count above one, creates the
physical copies (`shutil.copy2`, recorded in `files` and `copyTrace`) and
appends the two table entries. -/
def cfcStep (acc : CopyState × RState) (entry : FPath × Nat) : CopyState × RState :=
  if entry.2 > 1 then
    let copies := copiesFor entry.1 entry.2
    (⟨acc.1.fileCopies ++ [(entry.1, copies)], acc.1.copyUsageIndex ++ [(entry.1, 0)]⟩,
     { acc.2 with
        files := acc.2.files ++ copies,
        copyTrace := acc.2.copyTrace ++ copies })
  else acc

/-- Model of `FFmpeg._create_file_copies(file_usage)`: clears both
tables, then iterates over the usage map. -/
def createFileCopies (usage : Usage) (st : RState) : CopyState × RState :=
  usage.foldl cfcStep (⟨[], []⟩, st)

/-- Model of `FFmpeg._get_unique_file_path(original_path)`: original for
the first use of a multiply-used file, copies for subsequent uses,
`RuntimeError` when the copies run out; paths without a `_file_copies`
entry are returned unchanged. -/
def getUniqueFilePath (cs : CopyState) (p : FPath) : Except PyErr (FPath × CopyState) :=
  match alookup cs.fileCopies p with
  | none => .ok (p, cs)
  | some copies =>
      match alookup cs.copyUsageIndex p with
      | none => .error (.keyError "copy_usage_index")
      | some usageIndex =>
          if usageIndex = 0 then
            .ok (p, { cs with copyUsageIndex := aset cs.copyUsageIndex p (usageIndex + 1) })
          else
            match copies[usageIndex - 1]? with
            | some c =>
                .ok (c, { cs with copyUsageIndex := aset cs.copyUsageIndex p (usageIndex + 1) })
            | none => .error (.runtimeError "No more copies available")

/-- Results of `n` successive `_get_unique_file_path(p)` calls on the
same handler; a raised exception ends the call sequence. -/
def allocCalls (cs : CopyState) (p : FPath) : Nat → List (Except PyErr FPath)
  | 0 => []
  | n + 1 =>
      match getUniqueFilePath cs p with
      | .ok (path, cs') => .ok path :: allocCalls cs' p n
      | .error e => [.error e]

theorem allocCalls_from (p : FPath) (copies : List FPath) :
    ∀ (k j : Nat) (cs : CopyState),
      alookup cs.fileCopies p = some copies →
      alookup cs.copyUsageIndex p = some (j + 1) →
      j + k = copies.length →
      allocCalls cs p (k + 1) =
        (copies.drop j).map Except.ok ++ [.error (.runtimeError "No more copies available")] := by
  intro k
  induction k with
  | zero =>
      intro j cs hfc hidx hlen
      have hj : j = copies.length := by omega
      have hnone : copies[j + 1 - 1]? = none := by
        simp [hj]
      simp [allocCalls, getUniqueFilePath, hfc, hidx, hnone, hj]
  | succ k ih =>
      intro j cs hfc hidx hlen
      have hlt : j < copies.length := by omega
      have hsome : copies[j]? = some (copies.get ⟨j, hlt⟩) := by
        simp [List.getElem?_eq_getElem hlt]
      have hget : getUniqueFilePath cs p =
          .ok (copies.get ⟨j, hlt⟩,
               { cs with copyUsageIndex := aset cs.copyUsageIndex p (j + 1 + 1) }) := by
        have hj1 : ¬ (j + 1 = 0) := by omega
        simp [getUniqueFilePath, hfc, hidx, hj1, hsome]
      have hstep :
          allocCalls cs p (k + 1 + 1) =
            .ok (copies.get ⟨j, hlt⟩) ::
              allocCalls
                { cs with copyUsageIndex := aset cs.copyUsageIndex p (j + 1 + 1) } p (k + 1) := by
        rw [allocCalls, hget]
      rw [hstep, ih (j + 1) { cs with copyUsageIndex := aset cs.copyUsageIndex p (j + 1 + 1) }
        (by exact hfc) (by simp [alookup_aset_self]) (by omega)]
      have hlt2 : j < (copies.map (fun c => (Except.ok c : Except PyErr FPath))).length := by
        simpa using hlt
      rw [show (Except.ok : FPath → Except PyErr FPath) = fun c => Except.ok c from rfl]
      rw [List.map_drop, List.map_drop, List.drop_eq_getElem_cons hlt2]
      simp

theorem cfc_foldl_preserves_fileCopies (p : FPath) (v : List FPath) :
    ∀ (usage : Usage) (acc : CopyState × RState),
      alookup acc.1.fileCopies p = some v →
      alookup (usage.foldl cfcStep acc).1.fileCopies p = some v := by
  intro usage
  induction usage with
  | nil => intro acc h; simpa using h
  | cons e rest ih =>
      intro acc h
      refine ih (cfcStep acc e) ?_
      unfold cfcStep
      by_cases he : e.2 > 1
      · simp only [he, if_pos]
        exact alookup_append_left _ _ _ h
      · simpa [he] using h

theorem cfc_foldl_preserves_usageIndex (p : FPath) (v : Nat) :
    ∀ (usage : Usage) (acc : CopyState × RState),
      alookup acc.1.copyUsageIndex p = some v →
      alookup (usage.foldl cfcStep acc).1.copyUsageIndex p = some v := by
  intro usage
  induction usage with
  | nil => intro acc h; simpa using h
  | cons e rest ih =>
      intro acc h
      refine ih (cfcStep acc e) ?_
      unfold cfcStep
      by_cases he : e.2 > 1
      · simp only [he, if_pos]
        exact alookup_append_left _ _ _ h
      · simpa [he] using h

theorem cfc_foldl_files_mono (p : FPath) :
    ∀ (usage : Usage) (acc : CopyState × RState),
      p ∈ acc.2.files → p ∈ (usage.foldl cfcStep acc).2.files := by
  intro usage
  induction usage with
  | nil => intro acc h; simpa using h
  | cons e rest ih =>
      intro acc h
      refine ih (cfcStep acc e) ?_
      unfold cfcStep
      by_cases he : e.2 > 1
      · simp only [he, if_pos]
        exact List.mem_append_left _ h
      · simpa [he] using h

theorem cfc_foldl_fileCopies_none (p : FPath) :
    ∀ (usage : Usage) (acc : CopyState × RState),
      (∀ e ∈ usage, e.1 ≠ p) →
      alookup acc.1.fileCopies p = none →
      alookup (usage.foldl cfcStep acc).1.fileCopies p = none := by
  intro usage
  induction usage with
  | nil => intro acc _ h; simpa using h
  | cons e rest ih =>
      intro acc hk h
      refine ih (cfcStep acc e) (fun x hx => hk x (List.mem_cons_of_mem _ hx)) ?_
      unfold cfcStep
      by_cases he : e.2 > 1
      · have hne : p ≠ e.1 := fun hpe => (hk e (List.mem_cons_self _ _)) hpe.symm
        simp only [he, if_pos]
        rw [alookup_append_right _ _ _ h]
        simp [alookup, hne]
      · simpa [he] using h

/-- After `_create_file_copies(usage)` with distinct keys, a path `p`
recorded with count `n > 1` has exactly the copy list `copiesFor p n`
and cursor `0`, and all its copies exist on disk; a path with count
`n <= 1` has no `_file_copies` entry at all. -/
theorem createFileCopies_spec (p : FPath) (n : Nat) :
    ∀ (usage : Usage) (acc : CopyState × RState),
      (usage.map Prod.fst).Nodup →
      (p, n) ∈ usage →
      alookup acc.1.fileCopies p = none →
      alookup acc.1.copyUsageIndex p = none →
      ((n > 1 →
        alookup (usage.foldl cfcStep acc).1.fileCopies p = some (copiesFor p n) ∧
        alookup (usage.foldl cfcStep acc).1.copyUsageIndex p = some 0 ∧
        ∀ c ∈ copiesFor p n, c ∈ (usage.foldl cfcStep acc).2.files) ∧
       (n ≤ 1 → alookup (usage.foldl cfcStep acc).1.fileCopies p = none)) := by
  intro usage
  induction usage with
  | nil => intro acc _ hmem; simp at hmem
  | cons e rest ih =>
      intro acc hnd hmem hfc hidx
      rw [List.map_cons] at hnd
      have hnot : e.1 ∉ rest.map Prod.fst := (List.nodup_cons.mp hnd).1
      have hnd' : (rest.map Prod.fst).Nodup := (List.nodup_cons.mp hnd).2
      rcases List.mem_cons.mp hmem with heq | hrest
      · -- this iteration handles (p, n)
        subst heq
        have hkeys : ∀ x ∈ rest, x.1 ≠ p := by
          intro x hx hxp
          exact hnot (show p ∈ rest.map Prod.fst by
            rw [← hxp]; exact List.mem_map_of_mem Prod.fst hx)
        constructor
        · intro hn
          have hstep : cfcStep acc (p, n) =
              (⟨acc.1.fileCopies ++ [(p, copiesFor p n)], acc.1.copyUsageIndex ++ [(p, 0)]⟩,
               { acc.2 with
                  files := acc.2.files ++ copiesFor p n,
                  copyTrace := acc.2.copyTrace ++ copiesFor p n }) := by
            simp [cfcStep, hn]
          have hfc' : alookup (cfcStep acc (p, n)).1.fileCopies p = some (copiesFor p n) := by
            rw [hstep]
            rw [alookup_append_right _ _ _ hfc]
            simp [alookup]
          have hidx' : alookup (cfcStep acc (p, n)).1.copyUsageIndex p = some 0 := by
            rw [hstep]
            rw [alookup_append_right _ _ _ hidx]
            simp [alookup]
          refine ⟨cfc_foldl_preserves_fileCopies p _ rest _ hfc',
                  cfc_foldl_preserves_usageIndex p _ rest _ hidx', ?_⟩
          intro c hc
          refine cfc_foldl_files_mono c rest _ ?_
          rw [hstep]
          exact List.mem_append_right _ hc
        · intro hn
          have hle : ¬ ((p, n).2 > 1) := by simpa using hn
          have hstep : cfcStep acc (p, n) = acc := by
            simp [cfcStep, hle]
          rw [List.foldl_cons, hstep]
          exact cfc_foldl_fileCopies_none p rest acc hkeys hfc
      · -- (p, n) appears later; the current entry has a different key
        have hne : p ≠ e.1 := by
          intro hpe
          exact hnot (hpe ▸ List.mem_map_of_mem Prod.fst hrest)
        have hfc' : alookup (cfcStep acc e).1.fileCopies p = none := by
          unfold cfcStep
          by_cases he : e.2 > 1
          · simp only [he, if_pos]
            rw [alookup_append_right _ _ _ hfc]
            simp [alookup, hne]
          · simpa [he] using hfc
        have hidx' : alookup (cfcStep acc e).1.copyUsageIndex p = none := by
          unfold cfcStep
          by_cases he : e.2 > 1
          · simp only [he, if_pos]
            rw [alookup_append_right _ _ _ hidx]
            simp [alookup, hne]
          · simpa [he] using hidx
        simpa using ih (cfcStep acc e) hnd' hrest hfc' hidx'

theorem copy_ne_base (i : Nat) (p : FPath) : FPath.copy i p ≠ p := by
  induction p generalizing i with
  | orig s => intro h; cases h
  | tmp k => intro h; cases h
  | outp k => intro h; cases h
  | copy j q ih =>
      intro h
      injection h with h1 h2
      exact ih j h2

theorem handedOut_nodup (p : FPath) (n : Nat) : (p :: copiesFor p n).Nodup := by
  refine List.nodup_cons.mpr ⟨?_, ?_⟩
  · intro hmem
    unfold copiesFor at hmem
    rcases List.mem_map.mp hmem with ⟨i, _, hi⟩
    exact copy_ne_base i p hi
  · refine List.Nodup.map ?_ (List.nodup_range _)
    intro i j hij
    injection hij

/-- Claim C1 (amended): for a path `p` pre-scanned with count `n >= 2`,
the first `n` calls of `_get_unique_file_path(p)` after
`_create_file_copies` return `n` pairwise-distinct existing paths — `p`
itself first, then copy `k-2` for occurrence `k` — and the `(n+1)`-th
call raises the exhausted-copies `RuntimeError`. -/
theorem c1_alloc_spec (usage : Usage) (st : RState) (p : FPath) (n : Nat)
    (hnd : (usage.map Prod.fst).Nodup) (hmem : (p, n) ∈ usage) (h2 : 2 ≤ n)
    (hex : p ∈ st.files) :
    allocCalls (createFileCopies usage st).1 p (n + 1) =
      (p :: copiesFor p n).map Except.ok ++
        [.error (.runtimeError "No more copies available")] ∧
    (p :: copiesFor p n).Nodup ∧
    (p :: copiesFor p n).length = n ∧
    ∀ q ∈ p :: copiesFor p n, q ∈ (createFileCopies usage st).2.files := by
  have hgt : n > 1 := h2
  obtain ⟨hspec, -⟩ :=
    createFileCopies_spec p n usage (⟨[], []⟩, st) hnd hmem (by simp [alookup]) (by simp [alookup])
  obtain ⟨hfc, hidx, hcopies⟩ := hspec hgt
  have hlen : (copiesFor p n).length = n - 1 := by
    simp [copiesFor]
  have hfc2 : alookup (createFileCopies usage st).1.fileCopies p = some (copiesFor p n) := hfc
  have hidx2 : alookup (createFileCopies usage st).1.copyUsageIndex p = some 0 := hidx
  constructor
  · -- call sequence
    have hget : getUniqueFilePath (createFileCopies usage st).1 p =
        .ok (p, ⟨(createFileCopies usage st).1.fileCopies,
                 aset (createFileCopies usage st).1.copyUsageIndex p 1⟩) := by
      unfold getUniqueFilePath
      rw [hfc2, hidx2]
      rfl
    have hn1 : n + 1 = (n - 1) + 1 + 1 := by omega
    have hfirst : allocCalls (createFileCopies usage st).1 p ((n - 1) + 1 + 1) =
        .ok p :: allocCalls ⟨(createFileCopies usage st).1.fileCopies,
          aset (createFileCopies usage st).1.copyUsageIndex p 1⟩ p ((n - 1) + 1) := by
      rw [allocCalls, hget]
    rw [hn1, hfirst]
    rw [allocCalls_from p (copiesFor p n) (n - 1) 0
      ⟨(createFileCopies usage st).1.fileCopies,
       aset (createFileCopies usage st).1.copyUsageIndex p 1⟩
      (by exact hfc2) (by simp [alookup_aset_self]) (by omega)]
    simp
  refine ⟨handedOut_nodup p n, by simp [hlen]; omega, ?_⟩
  · intro q hq
    rcases List.mem_cons.mp hq with hq | hq
    · subst hq
      exact cfc_foldl_files_mono q usage (⟨⟨[], []⟩, st⟩) hex
    · exact hcopies q hq

theorem c1_alloc_spec_witness :
    (((([(FPath.orig "a.mp4", 3)] : Usage).map Prod.fst).Nodup ∧
      (FPath.orig "a.mp4", 3) ∈ ([(FPath.orig "a.mp4", 3)] : Usage) ∧
      FPath.orig "a.mp4" ∈ (⟨[FPath.orig "a.mp4"], 0, [], [], []⟩ : RState).files) ∧
     allocCalls (createFileCopies [(FPath.orig "a.mp4", 3)]
        ⟨[FPath.orig "a.mp4"], 0, [], [], []⟩).1 (FPath.orig "a.mp4") 4 =
      (FPath.orig "a.mp4" :: copiesFor (FPath.orig "a.mp4") 3).map Except.ok ++
        [.error (.runtimeError "No more copies available")] ∧
      (FPath.orig "a.mp4" :: copiesFor (FPath.orig "a.mp4") 3).Nodup ∧
      (FPath.orig "a.mp4" :: copiesFor (FPath.orig "a.mp4") 3).length = 3 ∧
      ∀ q ∈ FPath.orig "a.mp4" :: copiesFor (FPath.orig "a.mp4") 3,
        q ∈ (createFileCopies [(FPath.orig "a.mp4", 3)]
              ⟨[FPath.orig "a.mp4"], 0, [], [], []⟩).2.files) :=
  ⟨⟨by decide, by decide, by decide⟩,
   c1_alloc_spec [(FPath.orig "a.mp4", 3)] ⟨[FPath.orig "a.mp4"], 0, [], [], []⟩
     (FPath.orig "a.mp4") 3 (by decide) (by decide) (by decide) (by decide)⟩

/-- Claim C1 (counterexample): for a path pre-scanned with count 1, a
call beyond the pre-scanned count does not fail — the second call
returns the original path again instead of raising the exhausted-copies
error, so the further-call clause of the claim is false. -/
theorem c1_counterexample :
    allocCalls (createFileCopies [(FPath.orig "a.mp4", 1)]
        ⟨[FPath.orig "a.mp4"], 0, [], [], []⟩).1 (FPath.orig "a.mp4") 2 =
      [.ok (FPath.orig "a.mp4"), .ok (FPath.orig "a.mp4")] := rfl

/- Wire-format workflow node as handled by
`_scan_workflow_for_file_usage` and `render_workflow.build_stream`.
A Python node value is a dict (with optional `url`, `action` and `input`
keys plus flat scalar params), a bare string (legacy leaf), or any other
value (`other`, e.g. a number — both traversals treat every such value
alike).  The `input` value of a dict is a single node or a list of
nodes; an absent key and an explicit `None` value coincide because both
traversals read it with `n.get('input')`. -/
mutual
inductive Node : Type where
  | dict (url? : Option Src) (action? : Option String)
      (input? : Option NInput) (params : Params)
  | str (s : Src)
  | other (tag : Nat)
inductive NInput : Type where
  | single (n : Node)
  | list (ns : List Node)
end

instance : Inhabited Node := ⟨.other 0⟩

/-- Remote-source test: `urlparse(source).scheme in ("http", "https")`
on the pre-parsed reference. -/
def isRemote : Src → Bool
  | .http _ => true
  | .pathStr _ => false

/-- Model of `FFmpeg._download_source_if_needed(source)`: remote URLs
are downloaded by `FileHandler.download_url_to_local` into a fresh
temporary file (a new `tempfile.NamedTemporaryFile` name on every call);
existing local paths are returned as-is; anything else raises
`ValueError`. -/
def downloadSourceIfNeeded (s : Src) (st : RState) : Except PyErr FPath × RState :=
  if isRemote s then
    (.ok (.tmp st.tmpCounter),
     { st with
        tmpCounter := st.tmpCounter + 1,
        files := FPath.tmp st.tmpCounter :: st.files,
        downloadTrace := s :: st.downloadTrace })
  else if FPath.orig s.body ∈ st.files then
    (.ok (.orig s.body), st)
  else
    (.error (.valueError ("Invalid URL or file path: " ++ s.body)), st)

/- Model of the recursive `scan_node` of
`FFmpeg._scan_workflow_for_file_usage`: resolves every leaf reference
(url entries and legacy bare strings) and increments its count;
dict nodes without `url` or `action`, and non-dict non-string values,
are silently ignored.  Exceptions propagate with the state reached so
far. -/
mutual
def scanNode (n : Node) (acc : Usage) (st : RState) : Except PyErr Usage × RState :=
  match n with
  | .dict url? action? input? _ =>
      match url? with
      | some u =>
          match downloadSourceIfNeeded u st with
          | (.ok p, st') => (.ok (bump acc p), st')
          | (.error e, st') => (.error e, st')
      | none =>
          match action? with
          | some _ =>
              match input? with
              | some (.list ns) => scanList ns acc st
              | some (.single m) => scanNode m acc st
              | none => (.ok acc, st)
          | none => (.ok acc, st)
  | .str s =>
      match downloadSourceIfNeeded s st with
      | (.ok p, st') => (.ok (bump acc p), st')
      | (.error e, st') => (.error e, st')
  | .other _ => (.ok acc, st)
def scanList (ns : List Node) (acc : Usage) (st : RState) : Except PyErr Usage × RState :=
  match ns with
  | [] => (.ok acc, st)
  | n :: rest =>
      match scanNode n acc st with
      | (.ok acc', st') => scanList rest acc' st'
      | (.error e, st') => (.error e, st')
end

/-- Model of `FFmpeg._scan_workflow_for_file_usage(node)`. -/
def scanWorkflow (n : Node) (st : RState) : Except PyErr Usage × RState :=
  scanNode n [] st

/- Predicate: every leaf reference of the tree is a non-remote string
naming an existing file of `files`, so that leaf resolution is the pure
map `FPath.orig`. -/
mutual
def leavesLocal (files : List FPath) : Node → Bool
  | .dict url? action? input? _ =>
      match url? with
      | some u => !(isRemote u) && decide (FPath.orig u.body ∈ files)
      | none =>
          match action? with
          | some _ =>
              match input? with
              | some (.list ns) => leavesLocalList files ns
              | some (.single m) => leavesLocal files m
              | none => true
          | none => true
  | .str s => !(isRemote s) && decide (FPath.orig s.body ∈ files)
  | .other _ => true
def leavesLocalList (files : List FPath) : List Node → Bool
  | [] => true
  | n :: rest => leavesLocal files n && leavesLocalList files rest
end

/- Number of leaf occurrences of the tree whose reference resolves to
the local path `p`, following exactly the branches the scan visits. -/
mutual
def leafCount (p : FPath) : Node → Nat
  | .dict url? action? input? _ =>
      match url? with
      | some u => if FPath.orig u.body = p then 1 else 0
      | none =>
          match action? with
          | some _ =>
              match input? with
              | some (.list ns) => leafCountList p ns
              | some (.single m) => leafCount p m
              | none => 0
          | none => 0
  | .str s => if FPath.orig s.body = p then 1 else 0
  | .other _ => 0
def leafCountList (p : FPath) : List Node → Nat
  | [] => 0
  | n :: rest => leafCount p n + leafCountList p rest
end

/- Pure result of the scan on a tree with only local leaves. -/
mutual
def pscan : Node → Usage → Usage
  | .dict url? action? input? _, acc =>
      match url? with
      | some u => bump acc (.orig u.body)
      | none =>
          match action? with
          | some _ =>
              match input? with
              | some (.list ns) => pscanList ns acc
              | some (.single m) => pscan m acc
              | none => acc
          | none => acc
  | .str s, acc => bump acc (.orig s.body)
  | .other _, acc => acc
def pscanList : List Node → Usage → Usage
  | [], acc => acc
  | n :: rest, acc => pscanList rest (pscan n acc)
end

mutual
theorem scanNode_local : (n : Node) → (acc : Usage) → (st : RState) →
    leavesLocal st.files n = true → scanNode n acc st = (.ok (pscan n acc), st)
  | .dict (some u) a? i? ps, acc, st, h => by
      simp only [leavesLocal, Bool.and_eq_true, Bool.not_eq_true', decide_eq_true_eq] at h
      simp [scanNode, pscan, downloadSourceIfNeeded, h.1, h.2]
  | .dict none (some a) (some (.list ns)) ps, acc, st, h => by
      have hrec := scanList_local ns acc st (by
        simp only [leavesLocal] at h; exact h)
      simp [scanNode, pscan, hrec]
  | .dict none (some a) (some (.single m)) ps, acc, st, h => by
      have hrec := scanNode_local m acc st (by
        simp only [leavesLocal] at h; exact h)
      simp [scanNode, pscan, hrec]
  | .dict none (some a) none ps, acc, st, _ => by
      simp [scanNode, pscan]
  | .dict none none i? ps, acc, st, _ => by
      simp [scanNode, pscan]
  | .str s, acc, st, h => by
      simp only [leavesLocal, Bool.and_eq_true, Bool.not_eq_true', decide_eq_true_eq] at h
      simp [scanNode, pscan, downloadSourceIfNeeded, h.1, h.2]
  | .other t, acc, st, _ => by
      simp [scanNode, pscan]
theorem scanList_local : (ns : List Node) → (acc : Usage) → (st : RState) →
    leavesLocalList st.files ns = true → scanList ns acc st = (.ok (pscanList ns acc), st)
  | [], acc, st, _ => by simp [scanList, pscanList]
  | n :: rest, acc, st, h => by
      simp only [leavesLocalList, Bool.and_eq_true] at h
      have h1 := scanNode_local n acc st h.1
      have h2 := scanList_local rest (pscan n acc) st h.2
      simp [scanList, pscanList, h1, h2]
end

mutual
theorem pscan_count : (n : Node) → (acc : Usage) → (p : FPath) →
    countOf (pscan n acc) p = countOf acc p + leafCount p n
  | .dict (some u) a? i? ps, acc, p => by
      simp [pscan, leafCount, countOf_bump, eq_comm]
  | .dict none (some a) (some (.list ns)) ps, acc, p => by
      have := pscanList_count ns acc p
      simpa [pscan, leafCount] using this
  | .dict none (some a) (some (.single m)) ps, acc, p => by
      have := pscan_count m acc p
      simpa [pscan, leafCount] using this
  | .dict none (some a) none ps, acc, p => by
      simp [pscan, leafCount]
  | .dict none none i? ps, acc, p => by
      simp [pscan, leafCount]
  | .str s, acc, p => by
      simp [pscan, leafCount, countOf_bump, eq_comm]
  | .other t, acc, p => by
      simp [pscan, leafCount]
theorem pscanList_count : (ns : List Node) → (acc : Usage) → (p : FPath) →
    countOf (pscanList ns acc) p = countOf acc p + leafCountList p ns
  | [], acc, p => by simp [pscanList, leafCountList]
  | n :: rest, acc, p => by
      have h1 := pscan_count n acc p
      have h2 := pscanList_count rest (pscan n acc) p
      simp [pscanList, leafCountList, h2, h1]
      omega
end

/-- Claim C3: on every workflow tree whose leaves resolve locally, the
usage scan succeeds without changing the filesystem state, and the
count it records for each canonical local path equals the number of
leaf occurrences (url leaves and legacy string leaves, one per
occurrence, across single and list inputs) resolving to that path. -/
theorem c3_scan_counts (n : Node) (st : RState) (p : FPath)
    (h : leavesLocal st.files n = true) :
    scanWorkflow n st = (.ok (pscan n []), st) ∧
    countOf (pscan n []) p = leafCount p n := by
  refine ⟨scanNode_local n [] st h, ?_⟩
  have := pscan_count n [] p
  simpa [countOf, alookup] using this

theorem c3_scan_counts_witness :
    (leavesLocal (⟨[FPath.orig "A.mp4"], 0, [], [], []⟩ : RState).files
      (Node.dict none (some "concat") (some (.list
        [Node.dict (some (Src.pathStr "A.mp4")) none none [],
         Node.dict none (some "trim")
           (some (.single (Node.dict (some (Src.pathStr "A.mp4")) none none [])))
           [("start", PyVal.int 0), ("duration", PyVal.int 1)],
         Node.dict (some (Src.pathStr "A.mp4")) none none []])) []) = true) ∧
    (scanWorkflow
        (Node.dict none (some "concat") (some (.list
          [Node.dict (some (Src.pathStr "A.mp4")) none none [],
           Node.dict none (some "trim")
             (some (.single (Node.dict (some (Src.pathStr "A.mp4")) none none [])))
             [("start", PyVal.int 0), ("duration", PyVal.int 1)],
           Node.dict (some (Src.pathStr "A.mp4")) none none []])) [])
        ⟨[FPath.orig "A.mp4"], 0, [], [], []⟩ =
      (.ok (pscan (Node.dict none (some "concat") (some (.list
          [Node.dict (some (Src.pathStr "A.mp4")) none none [],
           Node.dict none (some "trim")
             (some (.single (Node.dict (some (Src.pathStr "A.mp4")) none none [])))
             [("start", PyVal.int 0), ("duration", PyVal.int 1)],
           Node.dict (some (Src.pathStr "A.mp4")) none none []])) []) []),
       ⟨[FPath.orig "A.mp4"], 0, [], [], []⟩) ∧
     countOf (pscan (Node.dict none (some "concat") (some (.list
          [Node.dict (some (Src.pathStr "A.mp4")) none none [],
           Node.dict none (some "trim")
             (some (.single (Node.dict (some (Src.pathStr "A.mp4")) none none [])))
             [("start", PyVal.int 0), ("duration", PyVal.int 1)],
           Node.dict (some (Src.pathStr "A.mp4")) none none []])) []) [])
        (FPath.orig "A.mp4") =
      leafCount (FPath.orig "A.mp4")
        (Node.dict none (some "concat") (some (.list
          [Node.dict (some (Src.pathStr "A.mp4")) none none [],
           Node.dict none (some "trim")
             (some (.single (Node.dict (some (Src.pathStr "A.mp4")) none none [])))
             [("start", PyVal.int 0), ("duration", PyVal.int 1)],
           Node.dict (some (Src.pathStr "A.mp4")) none none []])) [])) :=
  ⟨by decide,
   c3_scan_counts _ ⟨[FPath.orig "A.mp4"], 0, [], [], []⟩ (FPath.orig "A.mp4") (by decide)⟩

/-- Claim C4 (counterexample): the scan is not deterministic across
repeated runs on a tree with a remote leaf — each run downloads the URL
into a fresh temporary file, so the two runs key their counts under
different canonical paths. -/
theorem c4_counterexample :
    (scanWorkflow (Node.dict (some (Src.http "http://example.com/v.mp4")) none none [])
        ⟨[], 0, [], [], []⟩).1 = .ok [(FPath.tmp 0, 1)] ∧
    (scanWorkflow (Node.dict (some (Src.http "http://example.com/v.mp4")) none none [])
        ((scanWorkflow (Node.dict (some (Src.http "http://example.com/v.mp4")) none none [])
          ⟨[], 0, [], [], []⟩).2)).1 = .ok [(FPath.tmp 1, 1)] ∧
    ([(FPath.tmp 0, 1)] : Usage) ≠ [(FPath.tmp 1, 1)] := by
  refine ⟨rfl, rfl, by decide⟩

/-- Claim C4 (amended): on trees whose leaves are all local existing
files, the scan is deterministic — two runs from any two states produce
the same usage mapping and leave their states unchanged. -/
theorem c4_scan_deterministic (n : Node) (st1 st2 : RState)
    (h1 : leavesLocal st1.files n = true) (h2 : leavesLocal st2.files n = true) :
    (scanWorkflow n st1).1 = (scanWorkflow n st2).1 ∧
    (scanWorkflow n st1).2 = st1 ∧ (scanWorkflow n st2).2 = st2 := by
  have e1 := scanNode_local n [] st1 h1
  have e2 := scanNode_local n [] st2 h2
  rw [scanWorkflow, e1, scanWorkflow, e2]
  exact ⟨rfl, rfl, rfl⟩

theorem c4_scan_deterministic_witness :
    (leavesLocal [FPath.orig "A.mp4"] (Node.str (Src.pathStr "A.mp4")) = true ∧
     leavesLocal [FPath.orig "A.mp4", FPath.orig "B.mp4"] (Node.str (Src.pathStr "A.mp4")) = true) ∧
    ((scanWorkflow (Node.str (Src.pathStr "A.mp4")) ⟨[FPath.orig "A.mp4"], 0, [], [], []⟩).1 =
      (scanWorkflow (Node.str (Src.pathStr "A.mp4"))
        ⟨[FPath.orig "A.mp4", FPath.orig "B.mp4"], 7, [], [], []⟩).1 ∧
     (scanWorkflow (Node.str (Src.pathStr "A.mp4")) ⟨[FPath.orig "A.mp4"], 0, [], [], []⟩).2 =
       ⟨[FPath.orig "A.mp4"], 0, [], [], []⟩ ∧
     (scanWorkflow (Node.str (Src.pathStr "A.mp4"))
        ⟨[FPath.orig "A.mp4", FPath.orig "B.mp4"], 7, [], [], []⟩).2 =
       ⟨[FPath.orig "A.mp4", FPath.orig "B.mp4"], 7, [], [], []⟩) :=
  ⟨⟨by decide, by decide⟩,
   c4_scan_deterministic (Node.str (Src.pathStr "A.mp4")) ⟨[FPath.orig "A.mp4"], 0, [], [], []⟩
     ⟨[FPath.orig "A.mp4", FPath.orig "B.mp4"], 7, [], [], []⟩ (by decide) (by decide)⟩

/-- Stream-graph handles built by the handlers (descriptions only, not
executed): `vin p` / `ain p` are `ffmpeg.input(p).video` /
`ffmpeg.input(p).audio`; `aSel s` is the `.audio` selection of a derived
stream; `filt name args ins` is any filter node (method-call filters
such as `.trim`, `.crop`, `.overlay` included, with their arguments
flattened into `args`). -/
inductive FStream : Type where
  | vin (p : FPath)
  | ain (p : FPath)
  | aSel (s : FStream)
  | filt (name : String) (args : List PyVal) (ins : List FStream)

mutual
def FStream.deq : (a b : FStream) → Decidable (a = b)
  | .vin p, .vin q =>
      match decEq p q with
      | isTrue h => isTrue (by rw [h])
      | isFalse h => isFalse (by intro hh; injection hh; contradiction)
  | .ain p, .ain q =>
      match decEq p q with
      | isTrue h => isTrue (by rw [h])
      | isFalse h => isFalse (by intro hh; injection hh; contradiction)
  | .aSel s, .aSel t =>
      match FStream.deq s t with
      | isTrue h => isTrue (by rw [h])
      | isFalse h => isFalse (by intro hh; injection hh; contradiction)
  | .filt n1 a1 i1, .filt n2 a2 i2 =>
      match decEq n1 n2, decEq a1 a2, FStream.deqList i1 i2 with
      | isTrue h1, isTrue h2, isTrue h3 => isTrue (by rw [h1, h2, h3])
      | isFalse h1, _, _ => isFalse (by intro hh; injection hh; contradiction)
      | _, isFalse h2, _ => isFalse (by intro hh; injection hh; contradiction)
      | _, _, isFalse h3 => isFalse (by intro hh; injection hh; contradiction)
  | .vin _, .ain _ => isFalse nofun
  | .vin _, .aSel _ => isFalse nofun
  | .vin _, .filt _ _ _ => isFalse nofun
  | .ain _, .vin _ => isFalse nofun
  | .ain _, .aSel _ => isFalse nofun
  | .ain _, .filt _ _ _ => isFalse nofun
  | .aSel _, .vin _ => isFalse nofun
  | .aSel _, .ain _ => isFalse nofun
  | .aSel _, .filt _ _ _ => isFalse nofun
  | .filt _ _ _, .vin _ => isFalse nofun
  | .filt _ _ _, .ain _ => isFalse nofun
  | .filt _ _ _, .aSel _ => isFalse nofun
def FStream.deqList : (a b : List FStream) → Decidable (a = b)
  | [], [] => isTrue rfl
  | [], _ :: _ => isFalse nofun
  | _ :: _, [] => isFalse nofun
  | x :: xs, y :: ys =>
      match FStream.deq x y, FStream.deqList xs ys with
      | isTrue h1, isTrue h2 => isTrue (by rw [h1, h2])
      | isFalse h1, _ => isFalse (by intro hh; injection hh; contradiction)
      | _, isFalse h2 => isFalse (by intro hh; injection hh; contradiction)
end

instance : DecidableEq FStream := FStream.deq

/-- A Python value holding streams as the handlers see it: a bare
stream handle, a tuple of stream-or-None entries (the `(video, audio)`
pairs, with arbitrary length as in Python), or `None` itself. -/
inductive SVal : Type where
  | single (s : FStream)
  | tup (elems : List (Option FStream))
  | noneV
  deriving DecidableEq

/-- Python `isinstance(s, tuple)`. -/
def SVal.isTup : SVal → Bool
  | .tup _ => true
  | _ => false

/-- Python `len(s)` of a tuple value (only queried on tuples). -/
def SVal.tupLen : SVal → Nat
  | .tup es => es.length
  | _ => 0

/-- Python indexing `s[i]` with bounds check (`IndexError` past the end,
`TypeError` on non-tuples). -/
def SVal.pyIndex (s : SVal) (i : Nat) : Except PyErr (Option FStream) :=
  match s with
  | .tup es =>
      match es[i]? with
      | some e => .ok e
      | none => .error (.indexError "tuple index out of range")
  | _ => .error (.typeError "object is not subscriptable")

/-- Python unpacking `v, a = streams` of a tuple value. -/
def unpack2 : SVal → Except PyErr (Option FStream × Option FStream)
  | .tup [v, a] => .ok (v, a)
  | .tup _ => .error (.valueError "values to unpack")
  | _ => .error (.typeError "cannot unpack non-sequence")

/-- Method call on a possibly-`None` stream handle (`AttributeError`
when it is `None`). -/
def vmeth (v? : Option FStream) (k : FStream → FStream) : Except PyErr FStream :=
  match v? with
  | some s => .ok (k s)
  | none => .error (.attributeError "filter")

/-- Model of `ffmpeg.filter(streams, name, args...)`: the library's
node constructor type-checks every incoming stream and raises
`TypeError` when one is `None`. -/
def ffilt (name : String) (args : List PyVal) (ins : List (Option FStream)) :
    Except PyErr FStream :=
  match ins.mapM id with
  | some ss => .ok (.filt name args ss)
  | none => .error (.typeError "Expected incoming stream(s) to be of type FilterableStream")

/-- Python str() of a parameter value, for f-string filter arguments. -/
def pyStr : PyVal → String
  | .int n => toString n
  | .str s => s
  | .pynone => "None"

/-- Python subtraction on parameter values (`TypeError` on non-numbers),
as in `offset = stream1_duration - duration`. -/
def pySub : PyVal → PyVal → Except PyErr PyVal
  | .int a, .int b => .ok (.int (a - b))
  | _, _ => .error (.typeError "unsupported operand type for subtraction")

/-- Model of `handle_trim`. -/
def handle_trim (streams : SVal) (params : Params) : Except PyErr SVal :=
  match streams with
  | .tup es => do
      let (v?, a?) ← unpack2 (.tup es)
      match v? with
      | none => .error (.attributeError "trim")
      | some v => do
          let start ← pgetStrict params "start"
          let dur ← pgetStrict params "duration"
          let vOut := FStream.filt "setpts" [.str "PTS-STARTPTS"]
            [FStream.filt "trim" [start, dur] [v]]
          let aOut := a?.map (fun a =>
            FStream.filt "asetpts" [.str "PTS-STARTPTS"]
              [FStream.filt "atrim" [start, dur] [a]])
          .ok (.tup [some vOut, aOut])
  | .single s => do
      let start ← pgetStrict params "start"
      let dur ← pgetStrict params "duration"
      .ok (.single (.filt "setpts" [.str "PTS-STARTPTS"]
        [.filt "trim" [start, dur] [s]]))
  | .noneV => .error (.attributeError "trim")

/-- Model of `handle_cut`. -/
def handle_cut (streams : SVal) (params : Params) : Except PyErr SVal :=
  match streams with
  | .tup es => do
      let (v?, a?) ← unpack2 (.tup es)
      match v? with
      | none => .error (.attributeError "crop")
      | some v => do
          let x ← pgetStrict params "x"
          let y ← pgetStrict params "y"
          let w ← pgetStrict params "width"
          let h ← pgetStrict params "height"
          .ok (.tup [some (.filt "crop" [x, y, w, h] [v]), a?])
  | .single s => do
      let x ← pgetStrict params "x"
      let y ← pgetStrict params "y"
      let w ← pgetStrict params "width"
      let h ← pgetStrict params "height"
      .ok (.single (.filt "crop" [x, y, w, h] [s]))
  | .noneV => .error (.attributeError "crop")

/-- Model of `handle_change_volume`. -/
def handle_change_volume (streams : SVal) (params : Params) : Except PyErr SVal :=
  match streams with
  | .tup es => do
      let (v?, a?) ← unpack2 (.tup es)
      match a? with
      | some a => do
          let vol ← pgetStrict params "volume"
          .ok (.tup [v?, some (.filt "volume" [vol] [a])])
      | none => .ok (.tup [v?, none])
  | .single s => do
      let vol ← pgetStrict params "volume"
      .ok (.single (.filt "volume" [vol] [.aSel s]))
  | .noneV => .error (.attributeError "audio")

/-- Model of `handle_concat`: mirrors the `all(isinstance(s, tuple))`
guard, the per-element length-2 check, and the two `ffmpeg.filter`
concat calls; when not all elements are tuples the function body ends
without a `return`, producing Python's implicit `None`. -/
def handle_concat (streams_list : List SVal) (_params : Params) : Except PyErr SVal :=
  if streams_list.all SVal.isTup then
    if streams_list.any (fun s => s.tupLen ≠ 2) then
      .error (.valueError "All streams must have both video and audio for concat action")
    else do
      let videos ← streams_list.mapM (fun s => s.pyIndex 0)
      let audios ← streams_list.mapM (fun s => s.pyIndex 1)
      let vOut ← ffilt "concat" [.int (streams_list.length : Int), .int 1, .int 0] videos
      let aOut ← ffilt "concat" [.int (streams_list.length : Int), .int 0, .int 1] audios
      .ok (.tup [some vOut, some aOut])
  else
    .ok .noneV

/-- Model of `handle_scale`. -/
def handle_scale (streams : SVal) (params : Params) : Except PyErr SVal :=
  let w := pgetD params "width" (.int (-1))
  let h := pgetD params "height" (.int (-1))
  match streams with
  | .tup es => do
      let (v?, a?) ← unpack2 (.tup es)
      match v? with
      | none => .error (.attributeError "filter")
      | some v => .ok (.tup [some (.filt "scale" [w, h] [v]), a?])
  | .single s => .ok (.single (.filt "scale" [w, h] [s]))
  | .noneV => .error (.attributeError "filter")

/-- Model of `handle_overlay`: exactly two input streams, composites
the second video onto the first at offset `(x, y)`, keeps the first
element's audio and discards the second's. -/
def handle_overlay (streams_list : List SVal) (params : Params) : Except PyErr SVal :=
  if streams_list.length ≠ 2 then
    .error (.valueError "Overlay action requires exactly 2 video streams")
  else
    let base := streams_list.getD 0 .noneV
    let ovl := streams_list.getD 1 .noneV
    let x := pgetD params "x" (.int 0)
    let y := pgetD params "y" (.int 0)
    if base.isTup && ovl.isTup then do
      let (bv?, ba?) ← unpack2 base
      let (ov?, _) ← unpack2 ovl
      match bv? with
      | none => .error (.attributeError "overlay")
      | some bv =>
          match ov? with
          | some ov => .ok (.tup [some (.filt "overlay" [x, y] [bv, ov]), ba?])
          | none =>
              .error (.typeError "Expected incoming stream(s) to be of type FilterableStream")
    else
      match base, ovl with
      | .single b, .single o => .ok (.single (.filt "overlay" [x, y] [b, o]))
      | .single _, _ =>
          .error (.typeError "Expected incoming stream(s) to be of type FilterableStream")
      | _, _ => .error (.attributeError "overlay")

/-- Model of `handle_fade`. -/
def handle_fade (streams : SVal) (params : Params) : Except PyErr SVal :=
  let fadeType := pgetD params "type" (.str "in")
  let startTime := pgetD params "start_time" (.int 0)
  let duration := pgetD params "duration" (.int 1)
  match streams with
  | .tup es => do
      let (v?, a?) ← unpack2 (.tup es)
      match v? with
      | none => .error (.attributeError "filter")
      | some v =>
          let aOut := a?.map (fun a => FStream.filt "afade" [fadeType, startTime, duration] [a])
          .ok (.tup [some (.filt "fade" [fadeType, startTime, duration] [v]), aOut])
  | .single s => .ok (.single (.filt "fade" [fadeType, startTime, duration] [s]))
  | .noneV => .error (.attributeError "filter")

/-- Model of `handle_rotate`. -/
def handle_rotate (streams : SVal) (params : Params) : Except PyErr SVal :=
  let angle := pgetD params "angle" (.int 0)
  let angleRad := PyVal.str (pyStr angle ++ "*PI/180")
  match streams with
  | .tup es => do
      let (v?, a?) ← unpack2 (.tup es)
      match v? with
      | none => .error (.attributeError "filter")
      | some v => .ok (.tup [some (.filt "rotate" [angleRad] [v]), a?])
  | .single s => .ok (.single (.filt "rotate" [angleRad] [s]))
  | .noneV => .error (.attributeError "filter")

/-- Model of `handle_speed`. -/
def handle_speed (streams : SVal) (params : Params) : Except PyErr SVal :=
  let factor := pgetD params "factor" (.int 1)
  let pts := PyVal.str ("PTS/" ++ pyStr factor)
  match streams with
  | .tup es => do
      let (v?, a?) ← unpack2 (.tup es)
      match v? with
      | none => .error (.attributeError "filter")
      | some v =>
          let aOut := a?.map (fun a => FStream.filt "atempo" [factor] [a])
          .ok (.tup [some (.filt "setpts" [pts] [v]), aOut])
  | .single s => .ok (.single (.filt "setpts" [pts] [s]))
  | .noneV => .error (.attributeError "filter")

/-- Model of `handle_blur`. -/
def handle_blur (streams : SVal) (params : Params) : Except PyErr SVal :=
  let radius := pgetD params "radius" (.int 5)
  match streams with
  | .tup es => do
      let (v?, a?) ← unpack2 (.tup es)
      match v? with
      | none => .error (.attributeError "filter")
      | some v => .ok (.tup [some (.filt "gblur" [radius] [v]), a?])
  | .single s => .ok (.single (.filt "gblur" [radius] [s]))
  | .noneV => .error (.attributeError "filter")

/-- Model of `handle_crossfade`: exactly two inputs, a required truthy
`stream1_duration`, blend offset `stream1_duration - duration`,
frame-rate normalization of both videos before the xfade blend. -/
def handle_crossfade (streams_list : List SVal) (params : Params) : Except PyErr SVal :=
  if streams_list.length ≠ 2 then
    .error (.valueError "Crossfade requires exactly 2 streams")
  else
    let duration := pgetD params "duration" (.int 1)
    let transition := pgetD params "transition" (.str "fade")
    let s1d := pget params "stream1_duration"
    if falsy s1d then
      .error (.valueError "stream1_duration parameter is required for crossfade")
    else do
      let offset ← pySub s1d duration
      let s1 := streams_list.getD 0 .noneV
      let s2 := streams_list.getD 1 .noneV
      if s1.isTup && s2.isTup then do
        let (v1?, a1?) ← unpack2 s1
        let (v2?, a2?) ← unpack2 s2
        let v1n ← vmeth v1? (fun v => .filt "fps" [.int 30] [v])
        let v2n ← vmeth v2? (fun v => .filt "fps" [.int 30] [v])
        let vOut := FStream.filt "xfade" [transition, offset, duration] [v1n, v2n]
        let aOut := match a1?, a2? with
          | some a1, some a2 =>
              some (FStream.filt "acrossfade" [duration, .int 0, .int 1] [a1, a2])
          | some a1, none => some a1
          | none, a2? => a2?
        .ok (.tup [some vOut, aOut])
      else
        match s1, s2 with
        | .single x, .single y =>
            .ok (.single (.filt "xfade" [transition, offset, duration]
              [.filt "fps" [.int 30] [x], .filt "fps" [.int 30] [y]]))
        | _, _ => .error (.attributeError "filter")

/-- Model of `handle_audio_mix`. -/
def handle_audio_mix (streams_list : List SVal) (params : Params) : Except PyErr SVal :=
  let weights := pget params "weights"
  if !(streams_list.all SVal.isTup) then
    .error (.valueError "Audio mix requires video/audio tuple streams")
  else do
    let videos ← streams_list.mapM (fun s => s.pyIndex 0)
    let audiosAll ← streams_list.mapM (fun s => s.pyIndex 1)
    let audios := audiosAll.filterMap id
    if audios.length < 2 then
      .error (.valueError "Audio mix requires at least 2 audio streams")
    else do
      let mixArgs := [PyVal.int (audios.length : Int)] ++
        (if falsy weights then [] else [weights])
      let aOut ← ffilt "amix" mixArgs (audios.map some)
      .ok (.tup [videos.getD 0 none, some aOut])

/-- Model of `handle_set_fps`. -/
def handle_set_fps (streams : SVal) (params : Params) : Except PyErr SVal :=
  let fps := pgetD params "fps" (.int 30)
  match streams with
  | .tup es => do
      let (v?, a?) ← unpack2 (.tup es)
      match v? with
      | none => .error (.attributeError "filter")
      | some v => .ok (.tup [some (.filt "fps" [fps] [v]), a?])
  | .single s => .ok (.single (.filt "fps" [fps] [s]))
  | .noneV => .error (.attributeError "filter")

/-- Model of `handle_set_format`. -/
def handle_set_format (streams : SVal) (params : Params) : Except PyErr SVal :=
  let fmt := pgetD params "format" (.str "yuv420p")
  match streams with
  | .tup es => do
      let (v?, a?) ← unpack2 (.tup es)
      match v? with
      | none => .error (.attributeError "filter")
      | some v => .ok (.tup [some (.filt "format" [fmt] [v]), a?])
  | .single s => .ok (.single (.filt "format" [fmt] [s]))
  | .noneV => .error (.attributeError "filter")

/-- Model of `handle_reset_video_pts`. -/
def handle_reset_video_pts (streams : SVal) (_params : Params) : Except PyErr SVal :=
  match streams with
  | .tup es => do
      let (v?, a?) ← unpack2 (.tup es)
      match v? with
      | none => .error (.attributeError "filter")
      | some v => .ok (.tup [some (.filt "setpts" [.str "PTS-STARTPTS"] [v]), a?])
  | .single s => .ok (.single (.filt "setpts" [.str "PTS-STARTPTS"] [s]))
  | .noneV => .error (.attributeError "filter")

/-- Model of `handle_audio_resample`. -/
def handle_audio_resample (streams : SVal) (params : Params) : Except PyErr SVal :=
  let rate := pgetD params "sample_rate" (.int 44100)
  match streams with
  | .tup es => do
      let (v?, a?) ← unpack2 (.tup es)
      let aOut := a?.map (fun a => FStream.filt "aresample" [rate] [a])
      .ok (.tup [v?, aOut])
  | .single s => .ok (.single (.filt "aresample" [rate] [.aSel s]))
  | .noneV => .error (.attributeError "audio")

/-- Model of `handle_reset_audio_pts`. -/
def handle_reset_audio_pts (streams : SVal) (_params : Params) : Except PyErr SVal :=
  match streams with
  | .tup es => do
      let (v?, a?) ← unpack2 (.tup es)
      let aOut := a?.map (fun a => FStream.filt "asetpts" [.str "PTS-STARTPTS"] [a])
      .ok (.tup [v?, aOut])
  | .single s => .ok (.single (.filt "asetpts" [.str "PTS-STARTPTS"] [.aSel s]))
  | .noneV => .error (.attributeError "audio")

/-- Model of `handle_audio_dynaudnorm`. -/
def handle_audio_dynaudnorm (streams : SVal) (_params : Params) : Except PyErr SVal :=
  match streams with
  | .tup es => do
      let (v?, a?) ← unpack2 (.tup es)
      let aOut := a?.map (fun a => FStream.filt "dynaudnorm" [] [a])
      .ok (.tup [v?, aOut])
  | .single s => .ok (.single (.filt "dynaudnorm" [] [.aSel s]))
  | .noneV => .error (.attributeError "audio")

/-- Model of `FFmpeg.normalize_input(local_path)`: builds the
`(inp.video, inp.audio)` pair and applies the six registry
normalization handlers in their fixed order; any exception is
re-raised wrapped as a generic `Exception` (original text dropped). -/
def normalize_input (p : FPath) : Except PyErr SVal :=
  let res : Except PyErr SVal := do
    let s1 ← handle_set_format (.tup [some (.vin p), some (.ain p)]) [("format", .str "yuv420p")]
    let s2 ← handle_reset_video_pts s1 []
    let s3 ← handle_set_fps s2 [("fps", .int 30)]
    let s4 ← handle_audio_resample s3 [("sample_rate", .int 44100)]
    let s5 ← handle_reset_audio_pts s4 []
    handle_audio_dynaudnorm s5 []
  match res with
  | .ok v => .ok v
  | .error _ => .error (.pyException "Error normalizing input")

/-- Arguments handed to `ffmpeg.output(...)` at the end of
`render_workflow`. -/
inductive OutCall : Type where
  | call (streams : List (Option FStream)) (path : FPath)
  deriving DecidableEq

/-- Model of the output-wrapping step of `render_workflow`: the
`isinstance(streams, tuple)` branch unpacks `(v, a)` and passes one or
two streams; any non-tuple value — a bare stream, or `None` — is passed
as the single stream argument. -/
def outputCall (streams : SVal) (path : FPath) : Except PyErr OutCall :=
  match streams with
  | .tup [v?, a?] =>
      match a? with
      | some a => .ok (.call [v?, some a] path)
      | none => .ok (.call [v?] path)
  | .tup _ => .error (.valueError "values to unpack")
  | .single s => .ok (.call [some s] path)
  | .noneV => .ok (.call [none] path)

/-- Claim C5 (code evaluation at the failing input): two stream pairs of
which the second has no audio channel pass the concat handler's only
guard (every element a tuple of length two), and the `None` audio handle
flows into the external concat filter constructor, which rejects it with
the library's `TypeError`; the handler's own
both-video-and-audio ValueError is never raised for this input. -/
theorem c5_concat_missing_audio_eval :
    handle_concat
      [.tup [some (.vin (.orig "a.mp4")), some (.ain (.orig "a.mp4"))],
       .tup [some (.vin (.orig "b.mp4")), none]] [] =
      .error (.typeError "Expected incoming stream(s) to be of type FilterableStream") := rfl

/-- Claim C9: overlay of two stream pairs composites the second video
onto the first at params offset (x, y), keeps the first pair's audio
handle unchanged and discards the second pair's audio (the result does
not depend on it); an input list of length other than two fails with
the exactly-2 ValueError. -/
theorem c9_overlay_spec (bv ov : FStream) (ba oa : Option FStream) (ps : Params)
    (l : List SVal) (hlen : l.length ≠ 2) :
    handle_overlay [.tup [some bv, ba], .tup [some ov, oa]] ps =
      .ok (.tup [some (.filt "overlay"
        [pgetD ps "x" (.int 0), pgetD ps "y" (.int 0)] [bv, ov]), ba]) ∧
    handle_overlay l ps =
      .error (.valueError "Overlay action requires exactly 2 video streams") := by
  refine ⟨rfl, ?_⟩
  simp [handle_overlay, hlen]

theorem c9_overlay_spec_witness :
    (([] : List SVal).length ≠ 2) ∧
    (handle_overlay
        [.tup [some (.vin (.orig "a.mp4")), some (.ain (.orig "a.mp4"))],
         .tup [some (.vin (.orig "b.mp4")), some (.ain (.orig "b.mp4"))]]
        [("x", .int 5), ("y", .int 7)] =
      .ok (.tup [some (.filt "overlay"
        [pgetD [("x", .int 5), ("y", .int 7)] "x" (.int 0),
         pgetD [("x", .int 5), ("y", .int 7)] "y" (.int 0)]
        [.vin (.orig "a.mp4"), .vin (.orig "b.mp4")]),
        some (.ain (.orig "a.mp4"))]) ∧
     handle_overlay [] [("x", .int 5), ("y", .int 7)] =
      .error (.valueError "Overlay action requires exactly 2 video streams")) :=
  ⟨by decide,
   c9_overlay_spec (.vin (.orig "a.mp4")) (.vin (.orig "b.mp4"))
     (some (.ain (.orig "a.mp4"))) (some (.ain (.orig "b.mp4")))
     [("x", .int 5), ("y", .int 7)] [] (by decide)⟩

/-- Claim C10: when not every element handed to the concat handler is a
tuple, the handler raises nothing and returns Python's implicit `None`
(no stream), and the render output wrapper then treats that `None` as a
stream: it takes the non-tuple branch and passes `None` as the single
stream argument of the engine output call. -/
theorem c10_concat_fallthrough (sl : List SVal) (ps : Params) (pth : FPath)
    (h : sl.all SVal.isTup = false) :
    handle_concat sl ps = .ok .noneV ∧
    outputCall SVal.noneV pth = .ok (.call [none] pth) := by
  refine ⟨?_, rfl⟩
  simp [handle_concat, h]

theorem c10_concat_fallthrough_witness :
    ([SVal.single (.vin (.orig "a.mp4")),
      SVal.single (.vin (.orig "b.mp4"))].all SVal.isTup = false) ∧
    (handle_concat
        [SVal.single (.vin (.orig "a.mp4")), SVal.single (.vin (.orig "b.mp4"))] [] =
      .ok .noneV ∧
     outputCall SVal.noneV (.outp 0) = .ok (.call [none] (.outp 0))) :=
  ⟨by decide,
   c10_concat_fallthrough
     [SVal.single (.vin (.orig "a.mp4")), SVal.single (.vin (.orig "b.mp4"))]
     [] (.outp 0) (by decide)⟩

/-- An input value accepted by the WorkflowBuilder methods: one Python
value, or a list of values. -/
inductive BVal : Type where
  | one (n : Node)
  | many (ns : List Node)

/-- The string-wrapping of `_build_item`: raw reference strings become
url leaf dicts, every other value is used as-is. -/
def wrapLeaf : Node → Node
  | .str s => .dict (some s) none none []
  | n => n

/-- Input normalization of `WorkflowBuilder._build_item`. -/
def buildItemInput : BVal → NInput
  | .one n => .single (wrapLeaf n)
  | .many ns => .list (ns.map wrapLeaf)

/-- Model of `WorkflowBuilder._build_item(action, input_stream, **kwargs)`. -/
def buildItem (action : String) (input : BVal) (kwargs : Params) : Node :=
  .dict none (some action) (some (buildItemInput input)) kwargs

/-- Python comparison `v <= 0` (`TypeError` for non-numbers, `None`
included). -/
def pyLe0 : PyVal → Except PyErr Bool
  | .int n => .ok (decide (n ≤ 0))
  | _ => .error (.typeError "not supported between instances")

/-- Model of `WorkflowBuilder.add_fade_action`: validates the fade type
against in/out and the positivity of the duration; `start_time` is
stored without any check.  (Error message quotes dropped.) -/
def add_fade_action (fade_type : PyVal) (start_time : PyVal) (duration : PyVal)
    (input_stream : BVal) : Except PyErr Node :=
  if fade_type ∉ ([.str "in", .str "out"] : List PyVal) then
    .error (.valueError "Fade type must be in or out")
  else do
    let le0 ← pyLe0 duration
    if le0 then .error (.valueError "Duration must be greater than 0")
    else .ok (buildItem "fade" input_stream
      [("type", fade_type), ("start_time", start_time), ("duration", duration)])

/-- Model of `WorkflowBuilder.add_crossfade_action`: exactly two inputs,
positive duration, and a stream1_duration that is neither `None` nor
non-positive, all checked at build time (the builder is a pure function
of its arguments, so no resource is touched). -/
def add_crossfade_action (input_streams : List Node) (duration : PyVal)
    (stream1_duration : PyVal) (transition : PyVal) : Except PyErr Node :=
  if input_streams.length ≠ 2 then
    .error (.valueError "Crossfade action requires exactly 2 inputs")
  else do
    let d0 ← pyLe0 duration
    if d0 then .error (.valueError "Duration must be greater than 0")
    else
      if stream1_duration = PyVal.pynone then
        .error (.valueError "stream1_duration must be provided and greater than 0")
      else do
        let s0 ← pyLe0 stream1_duration
        if s0 then
          .error (.valueError "stream1_duration must be provided and greater than 0")
        else .ok (buildItem "crossfade" (.many input_streams)
          [("duration", duration), ("stream1_duration", stream1_duration),
           ("transition", transition)])

/-- Claim C7 (counterexample): a fade with negative start_time is not
rejected — the builder returns the assembled action node. -/
theorem c7_counterexample :
    add_fade_action (.str "in") (.int (-1)) (.int 1)
        (.one (.str (.pathStr "v.mp4"))) =
      .ok (buildItem "fade" (.one (.str (.pathStr "v.mp4")))
        [("type", .str "in"), ("start_time", .int (-1)), ("duration", .int 1)]) := rfl

/-- Claim C7 (amended): the fade builder rejects only an unknown fade
type or a non-positive duration; every start_time value — negative ones
included — is accepted unchecked and stored in the node. -/
theorem c7_fade_builder_spec (ft : String) (stt : PyVal) (d : Int) (inp : BVal)
    (hft : ft = "in" ∨ ft = "out") (hd : 0 < d) :
    add_fade_action (.str ft) stt (.int d) inp =
      .ok (buildItem "fade" inp
        [("type", .str ft), ("start_time", stt), ("duration", .int d)]) := by
  have hmem : (PyVal.str ft) ∈ ([.str "in", .str "out"] : List PyVal) := by
    rcases hft with h | h <;> subst h <;> simp
  have hle : ¬ (d ≤ 0) := by omega
  simp [add_fade_action, hmem, pyLe0, hle, Bind.bind, Except.bind]

theorem c7_fade_builder_spec_witness :
    (("in" = "in" ∨ ("in" : String) = "out") ∧ (0 : Int) < 1) ∧
    add_fade_action (.str "in") (.int (-9)) (.int 1)
        (.one (.str (.pathStr "v.mp4"))) =
      .ok (buildItem "fade" (.one (.str (.pathStr "v.mp4")))
        [("type", .str "in"), ("start_time", .int (-9)), ("duration", .int 1)]) :=
  ⟨⟨Or.inl rfl, by decide⟩,
   c7_fade_builder_spec "in" (.int (-9)) 1 (.one (.str (.pathStr "v.mp4")))
     (Or.inl rfl) (by decide)⟩

/-- Whether an `Except` result is a success. -/
def exceptIsOk {ε α : Type} : Except ε α → Bool
  | .ok _ => true
  | .error _ => false

/-- The actions `build_stream` dispatches with a list of built inputs. -/
def listActionNames : List String := ["concat", "crossfade", "audio_mix", "overlay"]

/-- `ACTION_REGISTRY.get(action)` as consulted on the single-input
dispatch path of `build_stream` (the four list actions are matched
before this lookup ever happens, so they are not needed here). -/
def unaryHandlerQ (action : String) : Option (SVal → Params → Except PyErr SVal) :=
  if action = "trim" then some handle_trim
  else if action = "cut" then some handle_cut
  else if action = "change_volume" then some handle_change_volume
  else if action = "scale" then some handle_scale
  else if action = "fade" then some handle_fade
  else if action = "rotate" then some handle_rotate
  else if action = "speed" then some handle_speed
  else if action = "blur" then some handle_blur
  else if action = "set_fps" then some handle_set_fps
  else if action = "set_format" then some handle_set_format
  else if action = "reset_video_pts" then some handle_reset_video_pts
  else if action = "audio_resample" then some handle_audio_resample
  else if action = "reset_audio_pts" then some handle_reset_audio_pts
  else if action = "audio_dynaudnorm" then some handle_audio_dynaudnorm
  else none

/-- Registry dispatch for the four list actions. -/
def listHandler (action : String) : List SVal → Params → Except PyErr SVal :=
  if action = "concat" then handle_concat
  else if action = "crossfade" then handle_crossfade
  else if action = "audio_mix" then handle_audio_mix
  else handle_overlay

/-- The fixed normalized video chain `normalize_input` produces. -/
def normVideo (p : FPath) : FStream :=
  .filt "fps" [.int 30]
    [.filt "setpts" [.str "PTS-STARTPTS"] [.filt "format" [.str "yuv420p"] [.vin p]]]

/-- The fixed normalized audio chain `normalize_input` produces. -/
def normAudio (p : FPath) : FStream :=
  .filt "dynaudnorm" []
    [.filt "asetpts" [.str "PTS-STARTPTS"] [.filt "aresample" [.int 44100] [.ain p]]]

theorem normalize_input_eq (p : FPath) :
    normalize_input p = .ok (.tup [some (normVideo p), some (normAudio p)]) := rfl

/-- Leaf evaluation inside `build_stream`: resolve the reference, ask
the copy allocator for this occurrence's unique path, then normalize
(the normalized path is recorded in `normTrace`). -/
def evalLeaf (s : Src) (st : RState) (cs : CopyState) :
    Except PyErr SVal × RState × CopyState :=
  match downloadSourceIfNeeded s st with
  | (.error e, st') => (.error e, st', cs)
  | (.ok orig, st') =>
      match getUniqueFilePath cs orig with
      | .error e => (.error e, st', cs)
      | .ok (uniq, cs') =>
          (normalize_input uniq, { st' with normTrace := uniq :: st'.normTrace }, cs')

/-- Evaluation of a run of legacy string leaves (used for the
keys/characters Python iterates over when a list action's stored input
is a single dict or string, each being a string that `build_stream`
treats as a legacy reference). -/
def evalLegacyList : List Src → RState → CopyState →
    Except PyErr (List SVal) × RState × CopyState
  | [], st, cs => (.ok [], st, cs)
  | s :: rest, st, cs =>
      match evalLeaf s st cs with
      | (.ok sv, st', cs') =>
          match evalLegacyList rest st' cs' with
          | (.ok svs, st2, cs2) => (.ok (sv :: svs), st2, cs2)
          | (.error e, st2, cs2) => (.error e, st2, cs2)
      | (.error e, st', cs') => (.error e, st', cs')

/-- Python iteration over a non-list `input` value at the list-action
dispatch site (`for inp in inputs` with `inputs = n.get('input', [])`
holding a single node): iterating a dict yields its key strings (in the
model's fixed url, action, input, params order), iterating a string
yields its characters as strings; other scalars are not iterable. -/
def pyIterStrings : Node → Except PyErr (List Src)
  | .dict url? action? input? ps =>
      .ok ((if url?.isSome then [Src.pathStr "url"] else []) ++
           (if action?.isSome then [Src.pathStr "action"] else []) ++
           (if input?.isSome then [Src.pathStr "input"] else []) ++
           ps.map (fun kv => Src.pathStr kv.1))
  | .str s => .ok (s.body.toList.map (fun c => Src.pathStr (String.singleton c)))
  | .other _ => .error (.typeError "object is not iterable")

/- Model of the recursive `build_stream` of `FFmpeg.render_workflow`.
The whole node dict serves as the handler's params dict; since no
handler reads the url/action/input keys, passing the node's params list
is observably identical. -/
mutual
def buildStream (n : Node) (st : RState) (cs : CopyState) :
    Except PyErr SVal × RState × CopyState :=
  match n with
  | .dict (some u) _ _ _ => evalLeaf u st cs
  | .dict none (some action) input? params =>
      if action ∈ listActionNames then
        match input? with
        | none => (listHandler action [] params, st, cs)
        | some (.list ns) =>
            match buildStreamList ns st cs with
            | (.ok svs, st', cs') => (listHandler action svs params, st', cs')
            | (.error e, st', cs') => (.error e, st', cs')
        | some (.single m) =>
            match pyIterStrings m with
            | .error e => (.error e, st, cs)
            | .ok srcs =>
                match evalLegacyList srcs st cs with
                | (.ok svs, st', cs') => (listHandler action svs params, st', cs')
                | (.error e, st', cs') => (.error e, st', cs')
      else
        match unaryHandlerQ action with
        | none => (.error (.valueError ("Unknown action: " ++ action)), st, cs)
        | some handler =>
            match input? with
            | none => (.error (.keyError "input"), st, cs)
            | some (.single m) =>
                match buildStream m st cs with
                | (.ok sv, st', cs') => (handler sv params, st', cs')
                | (.error e, st', cs') => (.error e, st', cs')
            | some (.list _) =>
                (.error (.valueError "Invalid node format"), st, cs)
  | .dict none none _ _ => (.error (.valueError "Invalid node format"), st, cs)
  | .str s => evalLeaf s st cs
  | .other _ => (.error (.valueError "Invalid node format"), st, cs)
def buildStreamList (ns : List Node) (st : RState) (cs : CopyState) :
    Except PyErr (List SVal) × RState × CopyState :=
  match ns with
  | [] => (.ok [], st, cs)
  | n :: rest =>
      match buildStream n st cs with
      | (.ok sv, st', cs') =>
          match buildStreamList rest st' cs' with
          | (.ok svs, st2, cs2) => (.ok (sv :: svs), st2, cs2)
          | (.error e, st2, cs2) => (.error e, st2, cs2)
      | (.error e, st', cs') => (.error e, st', cs')
end

/-- Model of `FFmpeg.render_workflow(node)`: scan the tree, create
copies for duplicated files, recursively build the stream graph, wrap
the output call on a fresh output path, and run the engine (`engineOk`
abstracts whether the external ffmpeg run succeeds; on success the
output file exists).  Raised exceptions propagate together with the
state reached — nothing on any exit path deletes a file. -/
def render_workflow (engineOk : Bool) (n : Node) (st : RState) :
    Except PyErr FPath × RState × CopyState :=
  match scanWorkflow n st with
  | (.error e, st1) => (.error e, st1, ⟨[], []⟩)
  | (.ok usage, st1) =>
      match createFileCopies usage st1 with
      | (cs1, st2) =>
          match buildStream n st2 cs1 with
          | (.error e, st3, cs2) => (.error e, st3, cs2)
          | (.ok streams, st3, cs2) =>
              let outPath := FPath.outp st3.tmpCounter
              let st4 := { st3 with tmpCounter := st3.tmpCounter + 1 }
              match outputCall streams outPath with
              | .error e => (.error e, st4, cs2)
              | .ok (.call args _) =>
                  if args.all Option.isSome then
                    if engineOk then
                      (.ok outPath, { st4 with files := outPath :: st4.files }, cs2)
                    else
                      (.error (.ffmpegError "ffmpeg error"), st4, cs2)
                  else
                    (.error (.typeError
                      "Expected incoming stream(s) to be of type FilterableStream"),
                     st4, cs2)

/-- Claim C8 (counterexample): a bare string node does not fail with the
invalid-node ValueError — evaluation accepts it as a legacy leaf
reference and returns the normalized stream pair of its resolved file. -/
theorem c8_counterexample :
    (buildStream (.str (.pathStr "a.mp4"))
        ⟨[.orig "a.mp4"], 0, [], [], []⟩ ⟨[], []⟩).1 =
      .ok (.tup [some (normVideo (.orig "a.mp4")),
                 some (normAudio (.orig "a.mp4"))]) := rfl

/-- Claim C8 (amended): evaluation rejects with the invalid-node
ValueError the values that are neither a dict containing url, nor a
dict containing action, nor a string: dicts with neither key, and
non-dict non-string scalars.  A bare string is not rejected — it takes
the legacy leaf path and evaluates to the normalized pair of its
resolved file. -/
theorem c8_invalid_node (tag : Nat) (i? : Option NInput) (ps : Params)
    (st : RState) (cs : CopyState) (s : String)
    (hs : FPath.orig s ∈ st.files) :
    buildStream (.other tag) st cs =
      (.error (.valueError "Invalid node format"), st, cs) ∧
    buildStream (.dict none none i? ps) st cs =
      (.error (.valueError "Invalid node format"), st, cs) ∧
    (buildStream (.str (.pathStr s)) st ⟨[], []⟩).1 =
      .ok (.tup [some (normVideo (.orig s)), some (normAudio (.orig s))]) := by
  refine ⟨by simp [buildStream], by simp [buildStream], ?_⟩
  simp [buildStream, evalLeaf, downloadSourceIfNeeded, isRemote, Src.body, hs,
    getUniqueFilePath, alookup, normalize_input_eq]

theorem c8_invalid_node_witness :
    (FPath.orig "a.mp4" ∈
      (⟨[FPath.orig "a.mp4"], 0, [], [], []⟩ : RState).files) ∧
    (buildStream (.other 0) ⟨[FPath.orig "a.mp4"], 0, [], [], []⟩ ⟨[], []⟩ =
      (.error (.valueError "Invalid node format"),
       ⟨[FPath.orig "a.mp4"], 0, [], [], []⟩, ⟨[], []⟩) ∧
     buildStream (.dict none none none []) ⟨[FPath.orig "a.mp4"], 0, [], [], []⟩ ⟨[], []⟩ =
      (.error (.valueError "Invalid node format"),
       ⟨[FPath.orig "a.mp4"], 0, [], [], []⟩, ⟨[], []⟩) ∧
     (buildStream (.str (.pathStr "a.mp4"))
        ⟨[FPath.orig "a.mp4"], 0, [], [], []⟩ ⟨[], []⟩).1 =
      .ok (.tup [some (normVideo (.orig "a.mp4")),
                 some (normAudio (.orig "a.mp4"))])) :=
  ⟨by decide,
   c8_invalid_node 0 none [] ⟨[FPath.orig "a.mp4"], 0, [], [], []⟩ ⟨[], []⟩
     "a.mp4" (by decide)⟩

/-- A raw crossfade tree over two distinct local leaves that omits the
`stream1_duration` parameter. -/
def crossfadeTreeNoD1 : Node :=
  .dict none (some "crossfade")
    (some (.list [.dict (some (.pathStr "a.mp4")) none none [],
                  .dict (some (.pathStr "b.mp4")) none none []]))
    [("duration", .int 1), ("transition", .str "fade")]

/-- Claim C6 (counterexample): rendering a raw crossfade tree without
`stream1_duration` does fail with the required-parameter ValueError,
but only at evaluation time — by then both leaf inputs have already
been resolved and normalized (the normalization trace of the failing
run holds both canonical paths), so resources are touched before the
failure surfaces. -/
theorem c6_counterexample :
    (render_workflow true crossfadeTreeNoD1
        ⟨[.orig "a.mp4", .orig "b.mp4"], 0, [], [], []⟩).1 =
      .error (.valueError "stream1_duration parameter is required for crossfade") ∧
    (render_workflow true crossfadeTreeNoD1
        ⟨[.orig "a.mp4", .orig "b.mp4"], 0, [], [], []⟩).2.1.normTrace =
      [.orig "b.mp4", .orig "a.mp4"] :=
  ⟨rfl, rfl⟩

/-- Claim C6 (amended): a crossfade built through the WorkflowBuilder
with a `None` stream1_duration is rejected at build time with a
ValueError before any resource is touched (the builder is pure); a raw
tree lacking the parameter instead fails only inside the crossfade
handler during evaluation, after its leaves were resolved, copied and
normalized (see the counterexample); and when a truthy
stream1_duration d1 and duration d are supplied, the blend offset of
the xfade filter is exactly d1 - d. -/
theorem c6_crossfade_spec (ins : List Node) (d : Int) (t : PyVal)
    (v1 a1v v2 a2v : FStream) (d1 dur : Int) (tr : PyVal)
    (hlen : ins.length = 2) (hd : 0 < d) (hd1 : d1 ≠ 0) :
    add_crossfade_action ins (.int d) .pynone t =
      .error (.valueError "stream1_duration must be provided and greater than 0") ∧
    handle_crossfade
        [.tup [some v1, some a1v], .tup [some v2, some a2v]]
        [("duration", .int dur), ("transition", tr), ("stream1_duration", .int d1)] =
      .ok (.tup [some (.filt "xfade" [tr, .int (d1 - dur), .int dur]
            [.filt "fps" [.int 30] [v1], .filt "fps" [.int 30] [v2]]),
           some (.filt "acrossfade" [.int dur, .int 0, .int 1] [a1v, a2v])]) := by
  constructor
  · have hne : ¬ (ins.length ≠ 2) := by simp [hlen]
    have hle : ¬ (d ≤ 0) := by omega
    simp [add_crossfade_action, hne, pyLe0, hle, Bind.bind, Except.bind]
  · have hdur : pgetD [("duration", PyVal.int dur), ("transition", tr),
        ("stream1_duration", PyVal.int d1)] "duration" (.int 1) = .int dur := rfl
    have htr : pgetD [("duration", PyVal.int dur), ("transition", tr),
        ("stream1_duration", PyVal.int d1)] "transition" (.str "fade") = tr := rfl
    have hs1 : pget [("duration", PyVal.int dur), ("transition", tr),
        ("stream1_duration", PyVal.int d1)] "stream1_duration" = .int d1 := rfl
    have hfalsy : falsy (.int d1) = false := by simp [falsy, hd1]
    simp only [handle_crossfade, hdur, htr, hs1, hfalsy]
    simp [pySub, unpack2, vmeth, SVal.isTup, Bind.bind, Except.bind]

theorem c6_crossfade_spec_witness :
    (([Node.dict (some (Src.pathStr "a.mp4")) none none [],
       Node.dict (some (Src.pathStr "b.mp4")) none none []].length = 2) ∧
     (0 : Int) < 1 ∧ (5 : Int) ≠ 0) ∧
    (add_crossfade_action
        [Node.dict (some (Src.pathStr "a.mp4")) none none [],
         Node.dict (some (Src.pathStr "b.mp4")) none none []]
        (.int 1) .pynone (.str "fade") =
      .error (.valueError "stream1_duration must be provided and greater than 0") ∧
     handle_crossfade
        [.tup [some (.vin (.orig "a.mp4")), some (.ain (.orig "a.mp4"))],
         .tup [some (.vin (.orig "b.mp4")), some (.ain (.orig "b.mp4"))]]
        [("duration", .int 1), ("transition", .str "fade"),
         ("stream1_duration", .int 5)] =
      .ok (.tup [some (.filt "xfade" [.str "fade", .int (5 - 1), .int 1]
            [.filt "fps" [.int 30] [.vin (.orig "a.mp4")],
             .filt "fps" [.int 30] [.vin (.orig "b.mp4")]]),
           some (.filt "acrossfade" [.int 1, .int 0, .int 1]
             [.ain (.orig "a.mp4"), .ain (.orig "b.mp4")])])) :=
  ⟨⟨by decide, by decide, by decide⟩,
   c6_crossfade_spec
     [Node.dict (some (Src.pathStr "a.mp4")) none none [],
      Node.dict (some (Src.pathStr "b.mp4")) none none []]
     1 (.str "fade")
     (.vin (.orig "a.mp4")) (.ain (.orig "a.mp4"))
     (.vin (.orig "b.mp4")) (.ain (.orig "b.mp4"))
     5 1 (.str "fade") (by decide) (by decide) (by decide)⟩

theorem downloadSourceIfNeeded_mono (s : Src) (st : RState) :
    st.files ⊆ (downloadSourceIfNeeded s st).2.files ∧
    (downloadSourceIfNeeded s st).2.copyTrace = st.copyTrace := by
  unfold downloadSourceIfNeeded
  by_cases h : isRemote s
  · refine ⟨?_, by simp [h]⟩
    simp only [h, if_true]
    exact fun x hx => List.mem_cons_of_mem _ hx
  · by_cases h2 : FPath.orig s.body ∈ st.files <;>
      simp [h, h2, List.Subset.refl]

theorem evalLeaf_mono (s : Src) (st : RState) (cs : CopyState) :
    st.files ⊆ (evalLeaf s st cs).2.1.files ∧
    (evalLeaf s st cs).2.1.copyTrace = st.copyTrace := by
  obtain ⟨hm, hc⟩ := downloadSourceIfNeeded_mono s st
  rcases hdl : downloadSourceIfNeeded s st with ⟨r, st'⟩
  rw [hdl] at hm hc
  cases r with
  | error e =>
      simp only [evalLeaf, hdl]
      exact ⟨hm, hc⟩
  | ok orig =>
      cases hg : getUniqueFilePath cs orig with
      | error e =>
          simp only [evalLeaf, hdl, hg]
          exact ⟨hm, hc⟩
      | ok pr =>
          obtain ⟨uniq, cs'⟩ := pr
          simp only [evalLeaf, hdl, hg]
          exact ⟨hm, hc⟩

theorem evalLegacyList_mono : ∀ (srcs : List Src) (st : RState) (cs : CopyState),
    st.files ⊆ (evalLegacyList srcs st cs).2.1.files ∧
    (evalLegacyList srcs st cs).2.1.copyTrace = st.copyTrace
  | [], st, cs => ⟨List.Subset.refl _, rfl⟩
  | s :: rest, st, cs => by
      obtain ⟨hm1, hc1⟩ := evalLeaf_mono s st cs
      rcases hel : evalLeaf s st cs with ⟨r, st', cs'⟩
      rw [hel] at hm1 hc1
      cases r with
      | error e =>
          simp only [evalLegacyList, hel]
          exact ⟨hm1, hc1⟩
      | ok sv =>
          obtain ⟨hm2, hc2⟩ := evalLegacyList_mono rest st' cs'
          rcases hrest : evalLegacyList rest st' cs' with ⟨r2, st2, cs2⟩
          rw [hrest] at hm2 hc2
          cases r2 with
          | error e =>
              simp only [evalLegacyList, hel, hrest]
              exact ⟨hm1.trans hm2, hc2.trans hc1⟩
          | ok svs =>
              simp only [evalLegacyList, hel, hrest]
              exact ⟨hm1.trans hm2, hc2.trans hc1⟩

mutual
theorem buildStream_mono : (n : Node) → (st : RState) → (cs : CopyState) →
    st.files ⊆ (buildStream n st cs).2.1.files ∧
    (buildStream n st cs).2.1.copyTrace = st.copyTrace
  | .dict (some u) a? i? ps, st, cs => by
      have h := evalLeaf_mono u st cs
      simpa [buildStream] using h
  | .dict none (some action) input? params, st, cs => by
      by_cases hla : action ∈ listActionNames
      · cases input? with
        | none =>
            simp only [buildStream, if_pos hla]
            exact ⟨List.Subset.refl _, trivial⟩
        | some ni =>
            cases ni with
            | list ns =>
                obtain ⟨hm, hc⟩ := buildStreamList_mono ns st cs
                rcases hbl : buildStreamList ns st cs with ⟨r, st2, cs2⟩
                rw [hbl] at hm hc
                cases r with
                | error e =>
                    simp only [buildStream, if_pos hla, hbl]
                    exact ⟨hm, hc⟩
                | ok svs =>
                    simp only [buildStream, if_pos hla, hbl]
                    exact ⟨hm, hc⟩
            | single m =>
                cases hit : pyIterStrings m with
                | error e =>
                    simp only [buildStream, if_pos hla, hit]
                    exact ⟨List.Subset.refl _, trivial⟩
                | ok srcs =>
                    obtain ⟨hm, hc⟩ := evalLegacyList_mono srcs st cs
                    rcases hel : evalLegacyList srcs st cs with ⟨r, st2, cs2⟩
                    rw [hel] at hm hc
                    cases r with
                    | error e =>
                        simp only [buildStream, if_pos hla, hit, hel]
                        exact ⟨hm, hc⟩
                    | ok svs =>
                        simp only [buildStream, if_pos hla, hit, hel]
                        exact ⟨hm, hc⟩
      · cases input? with
        | none =>
            cases hu : unaryHandlerQ action with
            | none =>
                simp only [buildStream, if_neg hla, hu]
                exact ⟨List.Subset.refl _, trivial⟩
            | some handler =>
                simp only [buildStream, if_neg hla, hu]
                exact ⟨List.Subset.refl _, trivial⟩
        | some ni =>
            cases ni with
            | list ns =>
                cases hu : unaryHandlerQ action with
                | none =>
                    simp only [buildStream, if_neg hla, hu]
                    exact ⟨List.Subset.refl _, trivial⟩
                | some handler =>
                    simp only [buildStream, if_neg hla, hu]
                    exact ⟨List.Subset.refl _, trivial⟩
            | single m =>
                cases hu : unaryHandlerQ action with
                | none =>
                    simp only [buildStream, if_neg hla, hu]
                    exact ⟨List.Subset.refl _, trivial⟩
                | some handler =>
                    obtain ⟨hm, hc⟩ := buildStream_mono m st cs
                    rcases hbs : buildStream m st cs with ⟨r, st2, cs2⟩
                    rw [hbs] at hm hc
                    cases r with
                    | error e =>
                        simp only [buildStream, if_neg hla, hu, hbs]
                        exact ⟨hm, hc⟩
                    | ok sv =>
                        simp only [buildStream, if_neg hla, hu, hbs]
                        exact ⟨hm, hc⟩
  | .dict none none i? ps, st, cs =>
      ⟨List.Subset.refl _, rfl⟩
  | .str s, st, cs => by
      have h := evalLeaf_mono s st cs
      simpa [buildStream] using h
  | .other t, st, cs =>
      ⟨List.Subset.refl _, rfl⟩
theorem buildStreamList_mono : (ns : List Node) → (st : RState) → (cs : CopyState) →
    st.files ⊆ (buildStreamList ns st cs).2.1.files ∧
    (buildStreamList ns st cs).2.1.copyTrace = st.copyTrace
  | [], st, cs => ⟨List.Subset.refl _, rfl⟩
  | n :: rest, st, cs => by
      obtain ⟨hm1, hc1⟩ := buildStream_mono n st cs
      rcases hbs : buildStream n st cs with ⟨r, st2, cs2⟩
      rw [hbs] at hm1 hc1
      cases r with
      | error e =>
          simp only [buildStreamList, hbs]
          exact ⟨hm1, hc1⟩
      | ok sv =>
          obtain ⟨hm2, hc2⟩ := buildStreamList_mono rest st2 cs2
          rcases hrest : buildStreamList rest st2 cs2 with ⟨r2, st3, cs3⟩
          rw [hrest] at hm2 hc2
          cases r2 with
          | error e =>
              simp only [buildStreamList, hbs, hrest]
              exact ⟨hm1.trans hm2, hc2.trans hc1⟩
          | ok svs =>
              simp only [buildStreamList, hbs, hrest]
              exact ⟨hm1.trans hm2, hc2.trans hc1⟩
end

mutual
theorem scanNode_mono : (n : Node) → (acc : Usage) → (st : RState) →
    st.files ⊆ (scanNode n acc st).2.files ∧
    (scanNode n acc st).2.copyTrace = st.copyTrace
  | .dict (some u) a? i? ps, acc, st => by
      obtain ⟨hm, hc⟩ := downloadSourceIfNeeded_mono u st
      rcases hdl : downloadSourceIfNeeded u st with ⟨r, st2⟩
      rw [hdl] at hm hc
      cases r with
      | error e => simp only [scanNode, hdl]; exact ⟨hm, hc⟩
      | ok p => simp only [scanNode, hdl]; exact ⟨hm, hc⟩
  | .dict none (some a) (some (.list ns)) ps, acc, st => by
      have h := scanList_mono ns acc st
      simpa [scanNode] using h
  | .dict none (some a) (some (.single m)) ps, acc, st => by
      have h := scanNode_mono m acc st
      simpa [scanNode] using h
  | .dict none (some a) none ps, acc, st =>
      ⟨List.Subset.refl _, rfl⟩
  | .dict none none i? ps, acc, st =>
      ⟨List.Subset.refl _, rfl⟩
  | .str s, acc, st => by
      obtain ⟨hm, hc⟩ := downloadSourceIfNeeded_mono s st
      rcases hdl : downloadSourceIfNeeded s st with ⟨r, st2⟩
      rw [hdl] at hm hc
      cases r with
      | error e => simp only [scanNode, hdl]; exact ⟨hm, hc⟩
      | ok p => simp only [scanNode, hdl]; exact ⟨hm, hc⟩
  | .other t, acc, st =>
      ⟨List.Subset.refl _, rfl⟩
theorem scanList_mono : (ns : List Node) → (acc : Usage) → (st : RState) →
    st.files ⊆ (scanList ns acc st).2.files ∧
    (scanList ns acc st).2.copyTrace = st.copyTrace
  | [], acc, st => ⟨List.Subset.refl _, rfl⟩
  | n :: rest, acc, st => by
      obtain ⟨hm1, hc1⟩ := scanNode_mono n acc st
      rcases hsc : scanNode n acc st with ⟨r, st2⟩
      rw [hsc] at hm1 hc1
      cases r with
      | error e =>
          simp only [scanList, hsc]
          exact ⟨hm1, hc1⟩
      | ok acc2 =>
          obtain ⟨hm2, hc2⟩ := scanList_mono rest acc2 st2
          simp only [scanList, hsc]
          exact ⟨hm1.trans hm2, hc2.trans hc1⟩
end

theorem cfc_foldl_subset (usage : Usage) (acc : CopyState × RState) :
    acc.2.files ⊆ (usage.foldl cfcStep acc).2.files :=
  fun p hp => cfc_foldl_files_mono p usage acc hp

theorem cfc_foldl_inv : ∀ (usage : Usage) (acc : CopyState × RState),
    (∀ p ∈ acc.2.copyTrace, p ∈ acc.2.files) →
    ∀ p ∈ (usage.foldl cfcStep acc).2.copyTrace,
      p ∈ (usage.foldl cfcStep acc).2.files
  | [], acc, hinv => by simpa using hinv
  | e :: rest, acc, hinv => by
      refine cfc_foldl_inv rest (cfcStep acc e) ?_
      unfold cfcStep
      by_cases he : e.2 > 1
      · simp only [he, if_pos]
        intro p hp
        rcases List.mem_append.mp hp with hp | hp
        · exact List.mem_append_left _ (hinv p hp)
        · exact List.mem_append_right _ hp
      · simpa [he] using hinv

/-- A crossfade tree that references the same local leaf twice (so one
physical copy is created) and omits `stream1_duration` (so the render
fails during evaluation). -/
def dupLeafCrossfadeTree : Node :=
  .dict none (some "crossfade")
    (some (.list [.dict (some (.pathStr "a.mp4")) none none [],
                  .dict (some (.pathStr "a.mp4")) none none []]))
    [("duration", .int 1)]

/-- Claim C2 (counterexample): a failing render does not delete the
temporary copy it created — after the call returns with an error, the
copy recorded in the copy trace still exists on disk. -/
theorem c2_counterexample :
    exceptIsOk (render_workflow true dupLeafCrossfadeTree
        ⟨[.orig "a.mp4"], 0, [], [], []⟩).1 = false ∧
    (render_workflow true dupLeafCrossfadeTree
        ⟨[.orig "a.mp4"], 0, [], [], []⟩).2.1.copyTrace =
      [FPath.copy 0 (.orig "a.mp4")] ∧
    FPath.copy 0 (.orig "a.mp4") ∈
      (render_workflow true dupLeafCrossfadeTree
        ⟨[.orig "a.mp4"], 0, [], [], []⟩).2.1.files :=
  ⟨rfl, rfl, by decide⟩

/-- Claim C2 (amended): no exit path of `render_workflow` deletes
anything — the set of existing files only grows across the call — so
the physical copies created for the call (recorded in the copy trace)
still exist when the call returns, whether it succeeds or raises; the
copies are not torn down. -/
theorem c2_copies_persist (engineOk : Bool) (n : Node) (st : RState)
    (hinv : ∀ p ∈ st.copyTrace, p ∈ st.files) :
    st.files ⊆ (render_workflow engineOk n st).2.1.files ∧
    ∀ p ∈ (render_workflow engineOk n st).2.1.copyTrace,
      p ∈ (render_workflow engineOk n st).2.1.files := by
  obtain ⟨hm1, hc1⟩ := scanNode_mono n [] st
  rcases hscan : scanWorkflow n st with ⟨r1, st1⟩
  have hscan' : scanNode n [] st = (r1, st1) := hscan
  rw [hscan'] at hm1 hc1
  have hinv1 : ∀ p ∈ st1.copyTrace, p ∈ st1.files := by
    intro p hp
    rw [hc1] at hp
    exact hm1 (hinv p hp)
  cases r1 with
  | error e =>
      simp only [render_workflow, hscan]
      exact ⟨hm1, hinv1⟩
  | ok usage =>
      rcases hcfc : createFileCopies usage st1 with ⟨cs1, st2⟩
      have hcfc' : usage.foldl cfcStep (⟨⟨[], []⟩, st1⟩) = (cs1, st2) := hcfc
      have hm2 : st1.files ⊆ st2.files := by
        have h := cfc_foldl_subset usage (⟨⟨[], []⟩, st1⟩)
        rw [hcfc'] at h
        exact h
      have hinv2 : ∀ p ∈ st2.copyTrace, p ∈ st2.files := by
        have h := cfc_foldl_inv usage (⟨⟨[], []⟩, st1⟩) hinv1
        rw [hcfc'] at h
        exact h
      obtain ⟨hm3, hc3⟩ := buildStream_mono n st2 cs1
      rcases hbs : buildStream n st2 cs1 with ⟨r3, st3, cs2⟩
      rw [hbs] at hm3 hc3
      have hinv3 : ∀ p ∈ st3.copyTrace, p ∈ st3.files := by
        intro p hp
        rw [hc3] at hp
        exact hm3 (hinv2 p hp)
      have hall : st.files ⊆ st3.files := (hm1.trans hm2).trans hm3
      cases r3 with
      | error e =>
          simp only [render_workflow, hscan, hcfc, hbs]
          exact ⟨hall, hinv3⟩
      | ok streams =>
          cases ho : outputCall streams (FPath.outp st3.tmpCounter) with
          | error e =>
              simp only [render_workflow, hscan, hcfc, hbs, ho]
              exact ⟨hall, hinv3⟩
          | ok oc =>
              obtain ⟨args, pth⟩ := oc
              by_cases hargs : args.all Option.isSome
              · cases engineOk with
                | true =>
                    simp only [render_workflow, hscan, hcfc, hbs, ho, hargs, if_pos, if_true]
                    refine ⟨fun x hx => List.mem_cons_of_mem _ (hall hx), ?_⟩
                    intro p hp
                    exact List.mem_cons_of_mem _ (hinv3 p hp)
                | false =>
                    simp only [render_workflow, hscan, hcfc, hbs, ho, hargs, if_pos,
                      Bool.false_eq_true, if_false]
                    exact ⟨hall, hinv3⟩
              · cases engineOk with
                | true =>
                    simp only [render_workflow, hscan, hcfc, hbs, ho, hargs, if_neg,
                      if_false]
                    exact ⟨hall, hinv3⟩
                | false =>
                    simp only [render_workflow, hscan, hcfc, hbs, ho, hargs, if_neg,
                      if_false]
                    exact ⟨hall, hinv3⟩

theorem c2_copies_persist_witness :
    (∀ p ∈ (⟨[FPath.orig "a.mp4"], 0, [], [], []⟩ : RState).copyTrace,
        p ∈ (⟨[FPath.orig "a.mp4"], 0, [], [], []⟩ : RState).files) ∧
    ((⟨[FPath.orig "a.mp4"], 0, [], [], []⟩ : RState).files ⊆
       (render_workflow false dupLeafCrossfadeTree
         ⟨[FPath.orig "a.mp4"], 0, [], [], []⟩).2.1.files ∧
     ∀ p ∈ (render_workflow false dupLeafCrossfadeTree
         ⟨[FPath.orig "a.mp4"], 0, [], [], []⟩).2.1.copyTrace,
       p ∈ (render_workflow false dupLeafCrossfadeTree
         ⟨[FPath.orig "a.mp4"], 0, [], [], []⟩).2.1.files) :=
  ⟨by simp,
   c2_copies_persist false dupLeafCrossfadeTree
     ⟨[FPath.orig "a.mp4"], 0, [], [], []⟩ (by simp)⟩

end MediaMCP
